import Mathlib

/-!
# Verification of the omero-archiving job-file workflow and checksummed copy

A shallow embedding, in Lean 4, of the core of the `omero-archiving`
repository: the per-file checksummed archive-copy procedure
(`src/tools/bin/archive_to_file.py` `process`,
`src/tools/bin/archive_to_arkivum.py` `process`), the job sweep
(`archive_to_file.py` `process_job`), the restart operation
(`src/tools/bin/restart_error_job.py` `process_job`), the declined-job
record cleanup (`src/tools/bin/process_archive_images.py`
`process_reviewed`), and the archive-record path derivation
(`src/tools/lib/python/gdsc/omero.py` `get_ark_path` /
`make_non_absolute`).

Modelling conventions:
* Paths and configuration keys/values are Lean `String`s; the scripts run
  on a POSIX system, so `os.path.splitdrive` is the identity (empty
  drive), `os.path.isabs s` is `s.startsWith "/"`, and the remaining
  `os.path` operations are defined below character-for-character from
  `posixpath`.
* File contents are `List Nat` (byte sequences).  The external hash
  functions (`hashlib.md5`, `hashlib.sha256`, `zlib.adler32`) are
  parameters of the environment: the scripts only ever compare their
  outputs.
* INI files read/written through `configparser.RawConfigParser` are
  ordered section lists (`Config` below).  `RawConfigParser` lowercases
  option names on read and set (its default `optionxform`); records are
  modelled as holding the normalised (lowercase) keys throughout, and the
  embedding uses the lowercased key where the script passes a capitalised
  one (`'Archived'`, `'State'`).
* The filesystem is an association list from path to entry (regular file
  with contents, or symbolic link); the archive-record files (`.ark`)
  are kept in a separate association list keyed by their path, and the
  state additionally carries a chronological log `recWrites` of
  record-file writes (newest first) as a pure observation used to state
  the persistence properties.
-/

set_option maxRecDepth 4096

namespace OmeroArchiving

/-! ## Association lists (assoc-list maps used for filesystems and records) -/

/-- First-match lookup in an association list. -/
def alookup {α β : Type} [DecidableEq α] : List (α × β) → α → Option β
  | [], _ => none
  | (k, v) :: t, a => if k = a then some v else alookup t a

/-- Insert-or-replace in an association list (replaces the first match,
otherwise appends). -/
def ainsert {α β : Type} [DecidableEq α] : List (α × β) → α → β → List (α × β)
  | [], a, b => [(a, b)]
  | (k, v) :: t, a, b => if k = a then (a, b) :: t else (k, v) :: ainsert t a b

/-- Remove all entries with the given key. -/
def aerase {α β : Type} [DecidableEq α] (l : List (α × β)) (a : α) : List (α × β) :=
  l.filter (fun kv => kv.1 ≠ a)

@[simp] theorem alookup_nil {α β : Type} [DecidableEq α] (a : α) :
    alookup ([] : List (α × β)) a = none := rfl

@[simp] theorem alookup_cons {α β : Type} [DecidableEq α] (k : α) (v : β)
    (t : List (α × β)) (a : α) :
    alookup ((k, v) :: t) a = if k = a then some v else alookup t a := rfl

/-! ## POSIX path operations (from CPython's `posixpath`) -/

/-- `os.path.isabs` on POSIX: the path starts with a slash. -/
def isabs (s : String) : Bool :=
  match s.data with
  | [] => false
  | c :: _ => c = '/'

/-- Leading-slash stripping: the `while os.path.isabs(path[index:])`
loop of `make_non_absolute` (`gdsc/omero.py` lines 233-236) drops
exactly the leading `'/'` characters. -/
def dropSlashes (s : String) : String :=
  ⟨s.data.dropWhile (fun c => c = '/')⟩

/-- `make_non_absolute` (`gdsc/omero.py` lines 228-237): on POSIX
`os.path.splitdrive` returns an empty drive, so the function strips the
leading slashes of the path. -/
def make_non_absolute (path : String) : String :=
  dropSlashes path

/-- Trailing-slash stripping (`head.rstrip('/')`). -/
def rstripSlashes (l : List Char) : List Char :=
  (l.reverse.dropWhile (fun c => c = '/')).reverse

/-- `os.path.split` on POSIX: split after the last slash, then strip
trailing slashes from the head unless the head is all slashes. -/
def psplit (s : String) : String × String :=
  let r := s.data.reverse
  let tail := (r.takeWhile (fun c => c ≠ '/')).reverse
  let headAll := (r.dropWhile (fun c => c ≠ '/')).reverse
  let head :=
    if headAll ≠ [] ∧ headAll.any (fun c => c ≠ '/') then rstripSlashes headAll
    else headAll
  (⟨head⟩, ⟨tail⟩)

/-- `os.path.basename` on POSIX: the part after the last slash. -/
def basename (s : String) : String :=
  ⟨(s.data.reverse.takeWhile (fun c => c ≠ '/')).reverse⟩

/-- `os.path.dirname` on POSIX (`os.path.split(p)[0]`). -/
def dirname (s : String) : String :=
  (psplit s).1

/-- Whether a string ends with a slash. -/
def endsWithSlash (s : String) : Bool :=
  s.data.getLast? = some '/'

/-- Two-argument `os.path.join` on POSIX. -/
def pjoin (a b : String) : String :=
  if isabs b then b
  else if a = "" ∨ endsWithSlash a then a ++ b
  else a ++ "/" ++ b

/-- `get_ark_path` (`gdsc/omero.py` lines 214-226) without the optional
directory-creation side effect: the archive-record path for a source
path, under the archive-log root. -/
def get_ark_path (ark_dir path : String) : String :=
  pjoin ark_dir (make_non_absolute path ++ ".ark")

/-! ## `configparser` model

A `RawConfigParser` instance is an ordered list of sections, each an
ordered list of `key = value` options with distinct keys.  `add_section`
appends an empty section; `set` replaces the first matching option of
its section or appends, and raises `NoSectionError` when the section is
absent; `remove_option` is guarded by `has_option` in all call sites
modelled here, so a total model suffices for it. -/

/-- One INI section: ordered `key = value` options. -/
abbrev Sect := List (String × String)

/-- One INI file: ordered named sections. -/
abbrev Config := List (String × Sect)

/-- `config.has_section(s)` / `config.items(s)` backing lookup. -/
def getSect (c : Config) (s : String) : Option Sect :=
  alookup c s

/-- `config.has_section(s)`. -/
def hasSect (c : Config) (s : String) : Bool :=
  (getSect c s).isSome

/-- `config.add_section(s)`. -/
def addSect (c : Config) (s : String) : Config :=
  c ++ [(s, [])]

/-- The `if not config.has_section(s): config.add_section(s)` prologue
of both `process` functions. -/
def ensureSect (c : Config) (s : String) : Config :=
  if hasSect c s then c else addSect c s

/-- Replace the first option with the given key, or append. -/
def setKV : Sect → String → String → Sect
  | [], k, v => [(k, v)]
  | (k', v') :: t, k, v => if k' = k then (k, v) :: t else (k', v') :: setKV t k v

/-- `config.set(s, k, v)`: `none` models `NoSectionError`. -/
def setOpt : Config → String → String → String → Option Config
  | [], _, _, _ => none
  | (s', kvs) :: t, s, k, v =>
    if s' = s then some ((s', setKV kvs k v) :: t)
    else (setOpt t s k v).map (fun t' => (s', kvs) :: t')

/-- A sequence of `config.set` calls on one section. -/
def setMany (c : Config) (s : String) : List (String × String) → Option Config
  | [] => some c
  | (k, v) :: t => (setOpt c s k v).bind (fun c' => setMany c' s t)

/-- `config.get(s, k)` guarded by `has_option` (the scripts' `get_option`
helper, `archive_to_file.py` lines 185-194). -/
def getOpt (c : Config) (s k : String) : Option String :=
  (getSect c s).bind (fun kvs => alookup kvs k)

/-- `config.has_option(s, k)`. -/
def hasOpt (c : Config) (s k : String) : Bool :=
  (getOpt c s k).isSome

/-- `config.remove_option(s, k)` (always guarded by `has_option` in the
modelled call sites, so the missing-section error cannot occur). -/
def removeOpt : Config → String → String → Config
  | [], _, _ => []
  | (sn, kvs) :: t, s, k =>
    if sn = s then (sn, kvs.filter (fun kv => kv.1 ≠ k)) :: removeOpt t s k
    else (sn, kvs) :: removeOpt t s k

/-! ## Shared constants (`gdsc/omero.py` lines 66-79) -/

def ARK_SOURCE : String := "Source"
def ARK_FILE_ARCHIVER : String := "File Archiver"
def ARK_ARKIVUM_ARCHIVER : String := "Arkivum Archiver"
def JOB_INFO : String := "Info"
def JOB_FILES : String := "Files"
def JOB_IGNORE : String := "Ignore"
def JOB_RUNNING : String := "Running"
def JOB_FINISHED : String := "Finished"
def JOB_ERROR : String := "Error"

/-! ## Python value helpers -/

/-- Exceptions raised by the embedded code. -/
inductive PyErr where
  /-- A reference to a name that is defined nowhere in the module. -/
  | nameError (name : String)
  /-- A reference to a local variable on a control path where it was
  never assigned. -/
  | unboundLocalError (name : String)
  /-- `configparser.NoSectionError`. -/
  | noSectionError (section_ : String)
  /-- `os.stat` / `open` on a missing file. -/
  | fileNotFoundError (path : String)
  /-- `raise Exception(msg)`. -/
  | exception (msg : String)
deriving DecidableEq, Repr

/-- `str(e)` as used by `process_job` to record an error message. -/
def pyErrMsg : PyErr → String
  | .nameError n => "name '" ++ n ++ "' is not defined"
  | .unboundLocalError n =>
      "local variable '" ++ n ++ "' referenced before assignment"
  | .noSectionError s => "No section: '" ++ s ++ "'"
  | .fileNotFoundError p => "[Errno 2] No such file or directory: '" ++ p ++ "'"
  | .exception m => m

/-- The `size` local of `process`: the record's `size` option after the
`int(size)` parse attempt (`archive_to_file.py` lines 249-254).  A missing
option stays `None`; a digit string becomes an int; anything else stays a
string. -/
inductive PyScalar where
  | pnone
  | pstr (s : String)
  | pint (n : Nat)
deriving DecidableEq, Repr

/-- Python truthiness of the `size` local. -/
def truthy : PyScalar → Bool
  | .pnone => false
  | .pstr s => s ≠ ""
  | .pint n => n ≠ 0

/-- Python truthiness of an optional string (`None` and `''` are falsy). -/
def struthy : Option String → Bool
  | none => false
  | some s => s ≠ ""

/-- Python `==` between the `size` local and an int from the remote JSON
(int/str cross-type comparison is `False`, never an error). -/
def pyEqInt (a : PyScalar) (n : Nat) : Bool :=
  match a with
  | .pint m => m = n
  | _ => false

/-- The value of a decimal digit character. -/
def digitVal? (c : Char) : Option Nat :=
  if c = '0' then some 0 else if c = '1' then some 1
  else if c = '2' then some 2 else if c = '3' then some 3
  else if c = '4' then some 4 else if c = '5' then some 5
  else if c = '6' then some 6 else if c = '7' then some 7
  else if c = '8' then some 8 else if c = '9' then some 9 else none

/-- Parse of a nonempty decimal-digit string, modelling Python's `int()`
(and `float()` for whole-second timestamps) on the strings these scripts
themselves write with `str()` of a nonnegative number. -/
def parseNat? (s : String) : Option Nat :=
  match s.data with
  | [] => none
  | l => l.foldl (fun acc c => acc.bind
      (fun n => (digitVal? c).map (fun d => n * 10 + d))) (some 0)

/-- Load-and-parse of the `size` option (`archive_to_file.py` lines
249-254): `int()` succeeds exactly on digit strings here, since the
scripts write sizes with `str()` of a nonnegative int. -/
def loadSize (c : Config) (sec : String) : PyScalar :=
  match getOpt c sec "size" with
  | none => .pnone
  | some s =>
    match parseNat? s with
    | some n => .pint n
    | none => .pstr s

/-- `try: timestamp = float(get_option(config, 'timestamp')) except: 0`
(`archive_to_file.py` lines 258-261): times are modelled as naturals. -/
def loadTimestamp (c : Config) (sec : String) : Nat :=
  ((getOpt c sec "timestamp").bind parseNat?).getD 0

/-! ## Filesystem and transfer state -/

/-- A filesystem entry: a regular file with contents, or a symlink. -/
inductive Entry where
  | regular (content : List Nat)
  | symlink (target : String)
deriving DecidableEq, Repr

/-- The on-disk state a transfer script sees and mutates: the filesystem
(source tree and archive destination tree share one namespace), the
archive-record files, and a pure observation log of record-file writes
(newest first). -/
structure St where
  fs : List (String × Entry)
  recs : List (String × Config)
  recWrites : List (String × Config)
deriving DecidableEq, Repr

/-- `os.path.exists` (an entry of either kind is present). -/
def pexists (st : St) (p : String) : Bool :=
  (alookup st.fs p).isSome

/-- `open(p, 'rb').read()`: the contents of a regular file. -/
def readFile (st : St) (p : String) : Option (List Nat) :=
  match alookup st.fs p with
  | some (.regular c) => some c
  | _ => none

/-- The `finally` block of both `process` functions (`archive_to_file.py`
lines 382-385, `archive_to_arkivum.py` lines 482-485): rewrite the
archive record file with the current in-memory config. -/
def writeRec (st : St) (arkFile : String) (c : Config) : St :=
  { st with
    recs := ainsert st.recs arkFile c
    recWrites := (arkFile, c) :: st.recWrites }

/-- The result of one `process(path)` call: a returned job status string
or a raised exception. -/
inductive PRes where
  | ok (status : String)
  | exc (e : PyErr)
deriving DecidableEq, Repr

/-- Whether a result is a raised exception. -/
def isExc : PRes → Bool
  | .ok _ => false
  | .exc _ => true

/-! ## `archive_to_file.py` `process` (lines 196-389) -/

/-- Environment of the file-store archiver: option values, the external
hash functions, and the clock.  `ctime` renders a timestamp the way
`time.ctime` does; `now` is both `time.time()` and the `st_mtime` of a
file just written. -/
structure FileEnv where
  archiveLog : String
  archiveRoot : String
  md5 : List Nat → String
  sha256 : List Nat → String
  adler32 : List Nat → Nat
  now : Nat
  ctime : Nat → String

/-- The destination path computed by `process` (lines 227-241): split off
the file name, make the directory part relative, and rebase it under the
archive root. -/
def destPathOf (archiveRoot path : String) : String :=
  let hd := (psplit path).1
  let filename := (psplit path).2
  pjoin (pjoin archiveRoot (dropSlashes hd)) filename

/-- Outcome of the `try` block: either a raised exception or the
`archived` flag, in both cases with the config and state at that point
(the `finally` block needs them). -/
abbrev TryRes := (PyErr × Config × St) ⊕ (Bool × Config × St)

/-- Verification and finalisation of the file-store archiver (lines
344-380): re-read the destination, compare all three digests, then
delete the original, stamp `Archived` and create the symlink.
`m`/`s2`/`a` are the digests of the source computed in the copy or
recompute branch (`md5Digest`, `sha256Digest` and the int `adler32sum`
local). -/
def fileVerify (env : FileEnv) (st : St) (cfg : Config) (path arkPath : String)
    (m s2 : String) (a : Nat) : TryRes :=
  match readFile st arkPath with
  | none => .inl (.fileNotFoundError arkPath, cfg, st)
  | some d =>
    if m ≠ env.md5 d ∨ s2 ≠ env.sha256 d ∨ a ≠ env.adler32 d then
      .inl (.exception "Archived file has different checksum", cfg, st)
    else
      let st1 : St := { st with fs := aerase st.fs path }
      match setOpt cfg ARK_FILE_ARCHIVER "archived" (env.ctime env.now) with
      | none => .inl (.noSectionError ARK_FILE_ARCHIVER, cfg, st1)
      | some cfg1 =>
        let st2 : St := { st1 with fs := ainsert st1.fs path (.symlink arkPath) }
        .inr (true, cfg1, st2)

/-- The `try` block of the file-store archiver (lines 225-380).  Branches
on the presence of the destination and of the recorded digests:
* destination missing: stream-copy while hashing, then record digests,
  size, path and copy time (lines 263-302);
* destination present, digests incomplete: recompute digests from the
  source (lines 304-335);
* destination present, digests complete: the resume path.  The locals
  `blocksize` and `adler32sum` are assigned only in the two branches
  above, so the verification read at line 350 raises
  `UnboundLocalError` for `blocksize`. -/
def fileTry (env : FileEnv) (st : St) (cfg : Config) (path : String)
    (content : List Nat) : TryRes :=
  let arkPath := destPathOf env.archiveRoot path
  let md5D := getOpt cfg ARK_FILE_ARCHIVER "md5"
  let sha256D := getOpt cfg ARK_FILE_ARCHIVER "sha256"
  let adler32D := getOpt cfg ARK_FILE_ARCHIVER "adler32"
  let sizeV := loadSize cfg ARK_FILE_ARCHIVER
  if ¬ pexists st arkPath then
    let m := env.md5 content
    let s2 := env.sha256 content
    let a := env.adler32 content
    let sz := content.length
    match setMany cfg ARK_FILE_ARCHIVER
        [("md5", m), ("sha256", s2), ("adler32", toString a),
         ("size", toString sz), ("path", arkPath),
         ("copied", env.ctime env.now), ("timestamp", toString env.now)] with
    | none => .inl (.noSectionError ARK_FILE_ARCHIVER, cfg, st)
    | some cfg1 =>
      let st1 : St := { st with fs := ainsert st.fs arkPath (.regular content) }
      fileVerify env st1 cfg1 path arkPath m s2 a
  else if ¬ (truthy sizeV ∧ struthy md5D ∧ struthy sha256D ∧ struthy adler32D) then
    let m := env.md5 content
    let s2 := env.sha256 content
    let a := env.adler32 content
    let sz := content.length
    match setMany cfg ARK_FILE_ARCHIVER
        [("md5", m), ("sha256", s2), ("adler32", toString a),
         ("size", toString sz), ("path", arkPath)] with
    | none => .inl (.noSectionError ARK_FILE_ARCHIVER, cfg, st)
    | some cfg1 => fileVerify env st cfg1 path arkPath m s2 a
  else
    .inl (.unboundLocalError "blocksize", cfg, st)

/-- `archive_to_file.py` `process(path)` (lines 196-389).  The module
defines `log`, `error`, `fatal` and `die` but no `warn`, so the symlink
branch (lines 205-207) raises `NameError` at the `warn(...)` call before
its `return JOB_IGNORE` is reached. -/
def processFile (env : FileEnv) (st : St) (path : String) : PRes × St :=
  match alookup st.fs path with
  | some (.symlink _) => (.exc (.nameError "warn"), st)
  | none => (.exc (.fileNotFoundError path), st)
  | some (.regular content) =>
    let arkFile := get_ark_path env.archiveLog path
    match alookup st.recs arkFile with
    | none => (.exc (.exception ("Missing archive record file: " ++ arkFile)), st)
    | some cfg0 =>
      let cfg1 := ensureSect cfg0 ARK_FILE_ARCHIVER
      match fileTry env st cfg1 path content with
      | .inl (e, cfg, st') => (.exc e, writeRec st' arkFile cfg)
      | .inr (archived, cfg, st') =>
        (.ok (if archived then JOB_FINISHED else JOB_RUNNING),
         writeRec st' arkFile cfg)

/-! ## `archive_to_arkivum.py` `process` (lines 250-489) -/

/-- The remote file information returned by the Arkivum REST API
(`get_info`, `archive_to_arkivum.py` lines 216-237), as consumed by
`process`: `get_key` yields `''` for a missing key, so each field is
optional.  `get_info` returning `{}` (no record, non-200 response or
undecodable body) is modelled as `none` at the `remote` call. -/
structure RInfo where
  ingestState : Option String
  size : Option Nat
  md5 : Option String
  replicationState : Option String
deriving DecidableEq, Repr

/-- Environment of the Arkivum archiver: option values (`arkivum_root`,
`arkivum_path`, the `--state` target replication state), the external
hash functions, the clock and the remote info API. -/
structure ArkEnv where
  archiveLog : String
  arkivumRoot : String
  arkivumPath : String
  targetState : String
  md5 : List Nat → String
  adler32 : List Nat → Nat
  now : Nat
  ctime : Nat → String
  remote : String → Option RInfo

/-- The destination path on the mounted appliance (lines 280-296). -/
def arkDestPathOf (env : ArkEnv) (path : String) : String :=
  let hd := (psplit path).1
  let filename := (psplit path).2
  pjoin (pjoin (pjoin env.arkivumRoot env.arkivumPath) (dropSlashes hd)) filename

/-- The path of the file relative to the base Arkivum directory, used to
query the REST API (line 301). -/
def arkRelPathOf (env : ArkEnv) (path : String) : String :=
  let hd := (psplit path).1
  let filename := (psplit path).2
  pjoin (pjoin env.arkivumPath (dropSlashes hd)) filename

/-- Remote verification and finalisation of the Arkivum archiver (lines
393-480), entered with the local `md5Digest` (`m`), `size` (`szV`),
`timestamp` and `file_copied` values of the chosen branch:
* no remote information: `Running` within the 600-second grace window
  after the copy, otherwise `raise Exception` (lines 402-412);
* ingest not `FINAL`: `Running` (lines 414-427);
* remote size or MD5 differ: `raise Exception` (lines 429-446);
* replication state: recorded; on reaching the target state the original
  is deleted, `Archived` stamped and the symlink created (lines 450-478). -/
def arkVerify (env : ArkEnv) (st : St) (cfg : Config) (path relPath arkPath : String)
    (m : String) (szV : PyScalar) (timestamp : Nat) (fileCopied : Bool) : TryRes :=
  match env.remote relPath with
  | none =>
    if fileCopied ∨ env.now - timestamp < 600 then .inr (false, cfg, st)
    else .inl (.exception "No file information available from Arkivum", cfg, st)
  | some info =>
    if info.ingestState.getD "" ≠ "FINAL" then .inr (false, cfg, st)
    else if ¬ (info.size.elim false (pyEqInt szV)) then
      .inl (.exception "Archived file has different size", cfg, st)
    else if m ≠ info.md5.getD "" then
      .inl (.exception "Archived file has different checksum", cfg, st)
    else
      let state := info.replicationState.getD ""
      match setOpt cfg ARK_ARKIVUM_ARCHIVER "state" state with
      | none => .inl (.noSectionError ARK_ARKIVUM_ARCHIVER, cfg, st)
      | some cfg1 =>
        if state = env.targetState then
          let st1 : St := { st with fs := aerase st.fs path }
          match setOpt cfg1 ARK_ARKIVUM_ARCHIVER "archived" (env.ctime env.now) with
          | none => .inl (.noSectionError ARK_ARKIVUM_ARCHIVER, cfg1, st1)
          | some cfg2 =>
            let st2 : St := { st1 with fs := ainsert st1.fs path (.symlink arkPath) }
            .inr (true, cfg2, st2)
        else
          .inr (false, cfg1, st)

/-- The `try` block of the Arkivum archiver (lines 279-480).  The same
three-way branch as the file archiver, with two Arkivum-specific
differences: the recompute branch's final `config.set` targets the
`File Archiver` section (line 384), which raises `NoSectionError` when
that section is absent from the record, and the resume branch is sound
here because verification is remote. -/
def arkTry (env : ArkEnv) (st : St) (cfg : Config) (path : String)
    (content : List Nat) : TryRes :=
  let arkPath := arkDestPathOf env path
  let relPath := arkRelPathOf env path
  let md5D := getOpt cfg ARK_ARKIVUM_ARCHIVER "md5"
  let adler32D := getOpt cfg ARK_ARKIVUM_ARCHIVER "adler32"
  let sizeV := loadSize cfg ARK_ARKIVUM_ARCHIVER
  let timestamp := loadTimestamp cfg ARK_ARKIVUM_ARCHIVER
  if ¬ pexists st arkPath then
    let m := env.md5 content
    let a := env.adler32 content
    let sz := content.length
    match setMany cfg ARK_ARKIVUM_ARCHIVER
        [("md5", m), ("adler32", toString a), ("size", toString sz),
         ("path", arkPath), ("copied", env.ctime env.now),
         ("timestamp", toString env.now)] with
    | none => .inl (.noSectionError ARK_ARKIVUM_ARCHIVER, cfg, st)
    | some cfg1 =>
      let st1 : St := { st with fs := ainsert st.fs arkPath (.regular content) }
      arkVerify env st1 cfg1 path relPath arkPath m (.pint sz) env.now true
  else if ¬ (truthy sizeV ∧ struthy md5D ∧ struthy adler32D) then
    let m := env.md5 content
    let a := env.adler32 content
    let sz := content.length
    match setMany cfg ARK_ARKIVUM_ARCHIVER
        [("md5", m), ("adler32", toString a), ("size", toString sz)] with
    | none => .inl (.noSectionError ARK_ARKIVUM_ARCHIVER, cfg, st)
    | some cfg1 =>
      match setOpt cfg1 ARK_FILE_ARCHIVER "path" arkPath with
      | none => .inl (.noSectionError ARK_FILE_ARCHIVER, cfg1, st)
      | some cfg2 => arkVerify env st cfg2 path relPath arkPath m (.pint sz) timestamp false
  else
    arkVerify env st cfg path relPath arkPath (md5D.getD "") sizeV timestamp false

/-- `archive_to_arkivum.py` `process(path)` (lines 250-489).  As in the
file archiver, the module never defines `warn`, so the symlink branch
(lines 259-261) raises `NameError`. -/
def processArk (env : ArkEnv) (st : St) (path : String) : PRes × St :=
  match alookup st.fs path with
  | some (.symlink _) => (.exc (.nameError "warn"), st)
  | none => (.exc (.fileNotFoundError path), st)
  | some (.regular content) =>
    let arkFile := get_ark_path env.archiveLog path
    match alookup st.recs arkFile with
    | none => (.exc (.exception ("Missing archive record file: " ++ arkFile)), st)
    | some cfg0 =>
      let cfg1 := ensureSect cfg0 ARK_ARKIVUM_ARCHIVER
      match arkTry env st cfg1 path content with
      | .inl (e, cfg, st') => (.exc e, writeRec st' arkFile cfg)
      | .inr (archived, cfg, st') =>
        (.ok (if archived then JOB_FINISHED else JOB_RUNNING),
         writeRec st' arkFile cfg)

/-! ## `archive_to_file.py` `process_job` (lines 391-509)

`process_job` drives one job file: it iterates the `Files` section in
stored order, asks `process` for each file still `Running` (memoised per
source path across jobs in `file_status`), and on the first `Error`
status stops and relocates the job.  The call to `process` is abstracted
as the `proc` oracle parameter, and the paths handed to it are logged
(oldest first) as a pure observation. -/

/-- Environment of one sweep of `process_job`: the job directory option
and the `time.strftime("%c")` completion stamp. -/
structure JobEnv where
  archiveJob : String
  completeTime : String

/-- The outcome of `process_job`: the rewritten job config, the updated
`file_status` memo and `paths` list (module globals), the log of
`process` invocations, and where the job file was moved (if anywhere). -/
structure JobOut where
  job : Config
  fileStatus : List (String × String)
  pathsArchived : List String
  calls : List String
  movedTo : Option String
deriving DecidableEq, Repr

/-- The per-file loop of `process_job` (lines 426-480).  Returns `none`
for an uncaught `NoSectionError` from `job.set`; otherwise the config,
memo, archived paths, running count, `error_flag` and call log at loop
exit (the flag is set and iteration stops at the first file whose final
status is `Error`).  The Python guard `if new_status:` tests string
truthiness; every status ever memoised is one of the nonempty
`JOB_*` constants, so presence in the memo is the faithful test. -/
def jobLoop (proc : String → PRes) :
    List (String × String) → Config → List (String × String) → List String →
    Nat → List String →
    Option (Config × List (String × String) × List String × Nat × Bool × List String)
  | [], job, fs, paths, running, calls => some (job, fs, paths, running, false, calls)
  | (path, status) :: rest, job, fs, paths, running, calls =>
    match alookup fs path with
    | some ns =>
      -- already processed in this sweep: copy the memoised status in
      match setOpt job JOB_FILES path ns with
      | none => none
      | some job1 =>
        let running1 := if ns = JOB_RUNNING then running + 1 else running
        if ns = JOB_ERROR then some (job1, fs, paths, running1, true, calls)
        else jobLoop proc rest job1 fs paths running1 calls
    | none =>
      if status = JOB_RUNNING then
        let calls1 := calls ++ [path]
        match proc path with
        | .ok st2 =>
          let paths1 := if st2 = JOB_FINISHED then paths ++ [path] else paths
          let running1 := if st2 = JOB_FINISHED then running else running + 1
          let fs1 := ainsert fs path st2
          match (if st2 ≠ JOB_RUNNING then setOpt job JOB_FILES path st2
                 else some job) with
          | none => none
          | some job1 =>
            if st2 = JOB_ERROR then some (job1, fs1, paths1, running1, true, calls1)
            else jobLoop proc rest job1 fs1 paths1 running1 calls1
        | .exc e =>
          match setOpt job JOB_INFO "error" (pyErrMsg e) with
          | none => none
          | some job1 =>
            let fs1 := ainsert fs path JOB_ERROR
            match setOpt job1 JOB_FILES path JOB_ERROR with
            | none => none
            | some job2 => some (job2, fs1, paths, running, true, calls1)
      else
        if status = JOB_ERROR then some (job, fs, paths, running, true, calls)
        else jobLoop proc rest job fs paths running calls

/-- `process_job(job_file)` (lines 391-509): clear the previous job
error, mark the job `Running` when it has unprocessed running files, run
the per-file loop, and on completion (error or no file left running)
stamp the terminal status and relocate the job file.  `none` models an
uncaught `NoSectionError`. -/
def processJob (env : JobEnv) (proc : String → PRes) (job : Config)
    (fileStatus : List (String × String)) : Option JobOut :=
  let job0 := if hasOpt job JOB_INFO "error" then removeOpt job JOB_INFO "error" else job
  match getSect job0 JOB_FILES with
  | none => none
  | some items =>
    let size := (items.filter
      (fun kv => (alookup fileStatus kv.1).isNone ∧ kv.2 = JOB_RUNNING)).length
    match (if size ≠ 0 then setOpt job0 JOB_INFO "status" JOB_RUNNING
           else some job0) with
    | none => none
    | some job1 =>
      match jobLoop proc items job1 fileStatus [] 0 [] with
      | none => none
      | some (job2, fs2, paths2, running2, errorFlag, calls2) =>
        let dir :=
          if errorFlag then pjoin env.archiveJob JOB_ERROR
          else if running2 = 0 then pjoin env.archiveJob JOB_FINISHED
          else ""
        if dir ≠ "" then
          let status := basename dir
          match setOpt job2 JOB_INFO "complete" env.completeTime with
          | none => none
          | some job3 =>
            match setOpt job3 JOB_INFO "status" status with
            | none => none
            | some job4 =>
              some { job := job4, fileStatus := fs2, pathsArchived := paths2,
                     calls := calls2, movedTo := some dir }
        else
          some { job := job2, fileStatus := fs2, pathsArchived := paths2,
                 calls := calls2, movedTo := none }

/-! ## `restart_error_job.py` `process_job` (lines 81-133)

The restart operation: reset every `Error` file to `Running`, drop the
job-level `error` option, re-derive the `Running` info status, and move
the job file back to the `Running` directory when it is elsewhere.  The
initial existence check (raise when the job file is absent) is outside
the model; the embedding covers an existing job file. -/

/-- The restart loop (lines 100-107): `count` errors reset, `size` files
running after the reset. -/
def restartLoop :
    List (String × String) → Config → Nat → Nat → Option (Config × Nat × Nat)
  | [], job, count, size => some (job, count, size)
  | (path, status) :: rest, job, count, size =>
    if status = JOB_ERROR then
      match setOpt job JOB_FILES path JOB_RUNNING with
      | none => none
      | some job1 => restartLoop rest job1 (count + 1) (size + 1)
    else if status = JOB_RUNNING then restartLoop rest job count (size + 1)
    else restartLoop rest job count size

/-- `restart_error_job.py` `process_job(job_file)` (lines 81-133) on an
existing job file: the rewritten config and whether the file was moved
to the `Running` directory (it is moved exactly when its current
directory differs). -/
def restartJob (archiveJob jobFile : String) (job : Config) : Option (Config × Bool) :=
  let job0 := if hasOpt job JOB_INFO "error" then removeOpt job JOB_INFO "error" else job
  match getSect job0 JOB_FILES with
  | none => none
  | some items =>
    match restartLoop items job0 0 0 with
    | none => none
    | some (job1, _count, size) =>
      match (if size ≠ 0 then setOpt job1 JOB_INFO "status" JOB_RUNNING
             else some job1) with
      | none => none
      | some job2 =>
        some (job2, dirname jobFile ≠ pjoin archiveJob JOB_RUNNING)

/-! ## `process_archive_images.py` declined-record cleanup (lines 394-416)

The per-path body of the declined branch of `process_reviewed`: the
archive record of a declined path is deleted when it holds no more than
one section (only the initial `Source` information); a record with more
than one section shows a transfer already started, so it is kept and a
warning logged, and the path is not added to the not-archived list. -/

/-- One iteration of the declined cleanup loop for `path`: the remaining
records, whether a warning was logged, and whether the path was added to
the not-archived `paths` list. -/
def cleanupDeclined (archiveLog : String) (recs : List (String × Config))
    (path : String) : List (String × Config) × Bool × Bool :=
  let arkFile := get_ark_path archiveLog path
  match alookup recs arkFile with
  | none => (recs, false, true)
  | some cfg =>
    if 1 < cfg.length then (recs, true, false)
    else (aerase recs arkFile, false, true)

/-! ## Claim C7: restart clears only errors -/

/-- Number of `Error` files in a `Files` section (restart's `count`). -/
def nErr (items : Sect) : Nat :=
  (items.filter (fun kv => kv.2 = JOB_ERROR)).length

/-- Number of files `Running` after the error reset (restart's `size`). -/
def nRun (items : Sect) : Nat :=
  (items.filter (fun kv => kv.2 = JOB_ERROR ∨ kv.2 = JOB_RUNNING)).length

/-- The single-file reset performed by restart: `Error` becomes
`Running`, everything else is untouched. -/
def resetKV (kv : String × String) : String × String :=
  (kv.1, if kv.2 = JOB_ERROR then JOB_RUNNING else kv.2)

/-! ## Concrete environments and states for closed evaluations

Stand-ins for the external hash functions and clock: the embedding never
relies on their values beyond comparing outputs, so any computable
functions exercise the scripts' control flow. -/

def testMd5 (c : List Nat) : String := "md5-" ++ toString (c.foldl (fun a b => a + b) 0)

def testSha256 (c : List Nat) : String := "sha-" ++ toString (c.foldl (fun a b => a + b) 1)

def testAdler32 (c : List Nat) : Nat := c.foldl (fun a b => a + b) 2

def testCtime (n : Nat) : String := "ctime-" ++ toString n

/-- A file-archiver environment over the test hash functions. -/
def testFileEnv : FileEnv :=
  { archiveLog := "/log", archiveRoot := "/arch", md5 := testMd5,
    sha256 := testSha256, adler32 := testAdler32, now := 1000, ctime := testCtime }

/-- An Arkivum environment whose remote info API reports nothing, at a
clock far past every grace window. -/
def testArkEnvSilent : ArkEnv :=
  { archiveLog := "/log", arkivumRoot := "/arkivum", arkivumPath := "omero",
    targetState := "green", md5 := testMd5, adler32 := testAdler32,
    now := 10000, ctime := testCtime, remote := fun _ => none }

/-- A state whose source path is a symlink left by a completed archival. -/
def symlinkSt : St :=
  { fs := [("/data/img.tif", .symlink "/arch/data/img.tif")],
    recs := [("/log/data/img.tif.ark", [("Source", [("image", "1")])])],
    recWrites := [] }

/-- The resume state of claim C1: the destination holds a full copy and
the record already carries all three digests and the size, exactly the
on-disk picture after an interruption between digest persistence and
verification. -/
def resumeSt : St :=
  { fs := [("/data/img.tif", .regular [1, 2, 3]),
           ("/arch/data/img.tif", .regular [1, 2, 3])],
    recs := [("/log/data/img.tif.ark",
      [("Source", [("image", "1")]),
       ("File Archiver",
        [("md5", "md5-6"), ("sha256", "sha-7"), ("adler32", "8"),
         ("size", "3"), ("path", "/arch/data/img.tif"),
         ("copied", "ctime-900"), ("timestamp", "900")])])],
    recWrites := [] }

/-! ## Claim C6: every exit path persists the archive record -/

/-- The configuration at the exit of a `try` block (what the `finally`
block writes). -/
def tryCfg : TryRes → Config
  | .inl (_, c, _) => c
  | .inr (_, c, _) => c

/-- The state at the exit of a `try` block. -/
def trySt : TryRes → St
  | .inl (_, _, st) => st
  | .inr (_, _, st) => st

/-! ## Claim C5: a missing remote record beyond the grace window is fatal -/

/-- The Arkivum resume state of claims C2/C5: destination copied, record
complete, copy timestamp 900. -/
def arkResumeSt : St :=
  { fs := [("/data/img.tif", .regular [1, 2, 3]),
           ("/arkivum/omero/data/img.tif", .regular [1, 2, 3])],
    recs := [("/log/data/img.tif.ark",
      [("Source", [("image", "1")]),
       ("Arkivum Archiver",
        [("md5", "md5-6"), ("adler32", "8"), ("size", "3"),
         ("path", "/arkivum/omero/data/img.tif"),
         ("copied", "ctime-900"), ("timestamp", "900")])])],
    recWrites := [] }

/-- A state whose destination copy is corrupt while the record digests
are missing (the recompute-branch mismatch scenario). -/
def corruptDestSt : St :=
  { fs := [("/data/img.tif", .regular [1, 2, 3]),
           ("/arch/data/img.tif", .regular [9, 9])],
    recs := [("/log/data/img.tif.ark", [("Source", [("image", "1")])])],
    recWrites := [] }

/-- A remote record in `FINAL` ingest state whose MD5 differs from the
recorded local digest. -/
def rinfoBadMd5 : RInfo :=
  { ingestState := some "FINAL", size := some 3,
    md5 := some "different", replicationState := some "green" }

/-- The silent Arkivum environment with the mismatching remote record. -/
def testArkEnvBadMd5 : ArkEnv :=
  { testArkEnvSilent with remote := fun _ => some rinfoBadMd5 }

/-! # Theorems -/

theorem alookup_ainsert {α β : Type} [DecidableEq α] (l : List (α × β)) (a : α) (b : β) :
    alookup (ainsert l a b) a = some b := by
  induction l with
  | nil => simp [ainsert]
  | cons h t ih =>
    obtain ⟨k, v⟩ := h
    by_cases hk : k = a <;> simp [ainsert, hk, ih]

theorem alookup_ainsert_ne {α β : Type} [DecidableEq α] (l : List (α × β)) (a a' : α) (b : β)
    (h : a ≠ a') : alookup (ainsert l a b) a' = alookup l a' := by
  induction l with
  | nil => simp [ainsert, h]
  | cons hd t ih =>
    obtain ⟨k, v⟩ := hd
    by_cases hk : k = a <;> simp [ainsert, hk, ih, h]

theorem alookup_aerase {α β : Type} [DecidableEq α] (l : List (α × β)) (a : α) :
    alookup (aerase l a) a = none := by
  induction l with
  | nil => simp [aerase]
  | cons hd t ih =>
    obtain ⟨k, v⟩ := hd
    by_cases hk : k = a <;> simp_all [aerase, List.filter_cons]

theorem getSect_addSect_ne (c : Config) (s s' : String) (h : s' ≠ s) :
    getSect (addSect c s) s' = getSect c s' := by
  induction c with
  | nil =>
    simp only [addSect, List.nil_append, getSect, alookup]
    rw [if_neg (fun hh => h hh.symm)]
  | cons hd t ih =>
    obtain ⟨k, v⟩ := hd
    simp only [addSect, List.cons_append, getSect, alookup] at *
    split
    · rfl
    · exact ih

theorem getSect_setOpt_ne (c : Config) (s k v s' : String) (c' : Config)
    (hset : setOpt c s k v = some c') (h : s' ≠ s) :
    getSect c' s' = getSect c s' := by
  induction c generalizing c' with
  | nil => simp [setOpt] at hset
  | cons hd t ih =>
    obtain ⟨sn, kvs⟩ := hd
    by_cases hs : sn = s
    · subst hs
      simp only [setOpt, eq_self_iff_true, if_true, Option.some.injEq] at hset
      subst hset
      simp only [getSect, alookup]
      rw [if_neg (fun hh => h hh.symm), if_neg (fun hh => h hh.symm)]
    · simp only [setOpt, if_neg hs] at hset
      cases ht : setOpt t s k v with
      | none => simp [ht] at hset
      | some t' =>
        simp only [ht, Option.map_some', Option.some.injEq] at hset
        subst hset
        simp only [getSect, alookup] at *
        split
        · rfl
        · exact ih t' ht

theorem getSect_setMany_ne (c : Config) (s : String) (kvs : List (String × String))
    (s' : String) (c' : Config) (hset : setMany c s kvs = some c') (h : s' ≠ s) :
    getSect c' s' = getSect c s' := by
  induction kvs generalizing c with
  | nil => simp [setMany] at hset; subst hset; rfl
  | cons hd t ih =>
    obtain ⟨k, v⟩ := hd
    simp only [setMany] at hset
    cases h1 : setOpt c s k v with
    | none => simp [h1] at hset
    | some c1 =>
      simp only [h1, Option.some_bind] at hset
      rw [ih c1 hset, getSect_setOpt_ne c s k v s' c1 h1 h]

theorem setOpt_isSome (c : Config) (s k v : String) (h : hasSect c s = true) :
    (setOpt c s k v).isSome := by
  induction c with
  | nil => simp [hasSect, getSect, alookup] at h
  | cons hd t ih =>
    obtain ⟨sn, kvs⟩ := hd
    by_cases hs : sn = s
    · simp [setOpt, hs]
    · simp only [hasSect, getSect, alookup, if_neg hs] at h
      simp only [setOpt, if_neg hs]
      cases ht : setOpt t s k v with
      | none => simp_all [hasSect, getSect]
      | some t' => simp

theorem getOpt_setOpt_self (c : Config) (s k v : String) (c' : Config)
    (hset : setOpt c s k v = some c') :
    getOpt c' s k = some v := by
  induction c generalizing c' with
  | nil => simp [setOpt] at hset
  | cons hd t ih =>
    obtain ⟨sn, kvs⟩ := hd
    by_cases hs : sn = s
    · subst hs
      simp only [setOpt, eq_self_iff_true, if_true, Option.some.injEq] at hset
      subst hset
      simp only [getOpt, getSect, alookup, eq_self_iff_true, if_true, Option.some_bind]
      induction kvs with
      | nil => simp [setKV, alookup]
      | cons kv t2 ih2 =>
        obtain ⟨k', v'⟩ := kv
        by_cases hk : k' = k <;> simp_all [setKV, alookup]
    · simp only [setOpt, if_neg hs] at hset
      cases ht : setOpt t s k v with
      | none => simp [ht] at hset
      | some t' =>
        simp only [ht, Option.map_some', Option.some.injEq] at hset
        subst hset
        simp only [getOpt, getSect, alookup, if_neg hs]
        exact ih t' ht

theorem getOpt_setOpt_ne_key (c : Config) (s k v k' : String) (c' : Config)
    (hset : setOpt c s k v = some c') (h : k' ≠ k) :
    getOpt c' s k' = getOpt c s k' := by
  induction c generalizing c' with
  | nil => simp [setOpt] at hset
  | cons hd t ih =>
    obtain ⟨sn, kvs⟩ := hd
    by_cases hs : sn = s
    · subst hs
      simp only [setOpt, eq_self_iff_true, if_true, Option.some.injEq] at hset
      subst hset
      simp only [getOpt, getSect, alookup, eq_self_iff_true, if_true, Option.some_bind]
      induction kvs with
      | nil =>
        simp only [setKV, alookup]
        rw [if_neg (fun hh => h hh.symm)]
      | cons kv t2 ih2 =>
        obtain ⟨k2, v2⟩ := kv
        by_cases hk : k2 = k
        · subst hk
          simp only [setKV, if_pos rfl, alookup]
          rw [if_neg (fun hh => h hh.symm), if_neg (fun hh => h hh.symm)]
        · simp only [setKV, if_neg hk, alookup]
          split
          · rfl
          · exact ih2
    · simp only [setOpt, if_neg hs] at hset
      cases ht : setOpt t s k v with
      | none => simp [ht] at hset
      | some t' =>
        simp only [ht, Option.map_some', Option.some.injEq] at hset
        subst hset
        simp only [getOpt, getSect, alookup, if_neg hs]
        exact ih t' ht

/-! ## Claim C9: the archive-record path mapping -/

theorem dropWhile_head_ne {l : List Char} {c : Char} {t : List Char}
    (h : l.dropWhile (fun x => x = '/') = c :: t) : ¬ (c = '/') := by
  induction l with
  | nil => simp [List.dropWhile] at h
  | cons a l ih =>
    by_cases ha : a = '/'
    · rw [List.dropWhile_cons, if_pos (by simp [ha])] at h
      exact ih h
    · rw [List.dropWhile_cons, if_neg (by simp [ha])] at h
      obtain ⟨rfl, -⟩ := List.cons.injEq .. ▸ h
      exact ha

theorem isabs_mna_ark (p : String) :
    isabs (make_non_absolute p ++ ".ark") = false := by
  have hdata : (make_non_absolute p ++ ".ark").data =
      p.data.dropWhile (fun c => c = '/') ++ ".ark".data := by
    rw [String.data_append]; rfl
  unfold isabs
  rw [hdata]
  cases h : p.data.dropWhile (fun c => c = '/') with
  | nil => rfl
  | cons c t => simpa using dropWhile_head_ne h

theorem get_ark_path_normal (d p : String) (hd : d ≠ "") (hs : endsWithSlash d = false) :
    get_ark_path d p = d ++ "/" ++ (make_non_absolute p ++ ".ark") := by
  unfold get_ark_path pjoin
  simp [isabs_mna_ark, hd, hs]

/-- **C9** (corrected).  The record-path mapping is deterministic and
preserves the source directory structure: for a log root that is a
nonempty directory path without a trailing separator, the record path is
the log root, a separator, the source path stripped of its drive and
leading separators, and the `.ark` suffix.  It is *not* collision-free
over all distinct source paths: two paths collide exactly when their
stripped forms coincide (so distinct absolute paths of the same drive
that differ beyond their leading separators always map to distinct
record paths). -/
theorem C9_record_path_mapping (d p q : String)
    (hd : d ≠ "") (hs : endsWithSlash d = false) :
    get_ark_path d p = d ++ "/" ++ (make_non_absolute p ++ ".ark") ∧
    (get_ark_path d p = get_ark_path d q ↔
      make_non_absolute p = make_non_absolute q) := by
  refine ⟨get_ark_path_normal d p hd hs, ?_⟩
  rw [get_ark_path_normal d p hd hs, get_ark_path_normal d q hd hs]
  rw [String.ext_iff, String.ext_iff]
  rw [String.data_append, String.data_append, String.data_append,
    String.data_append, String.data_append, String.data_append]
  rw [List.append_cancel_left_eq, List.append_cancel_right_eq]

/-- **C9** counterexample to the claim as stated: the absolute path
`/data/img.tif` and the relative path `data/img.tif` are distinct source
paths whose derived record paths coincide. -/
theorem C9_counterexample :
    "/data/img.tif" ≠ "data/img.tif" ∧
    get_ark_path "/OMERO/Archive/Log" "/data/img.tif" =
      get_ark_path "/OMERO/Archive/Log" "data/img.tif" := by
  constructor
  · decide
  · decide

/-- **C9** witness: the amended theorem applied at a concrete log root
and source paths. -/
theorem C9_witness :
    get_ark_path "/OMERO/Archive/Log" "/data/a.tif" =
      "/OMERO/Archive/Log" ++ "/" ++ (make_non_absolute "/data/a.tif" ++ ".ark") ∧
    (get_ark_path "/OMERO/Archive/Log" "/data/a.tif" =
        get_ark_path "/OMERO/Archive/Log" "/data/b.tif" ↔
      make_non_absolute "/data/a.tif" = make_non_absolute "/data/b.tif") :=
  C9_record_path_mapping "/OMERO/Archive/Log" "/data/a.tif" "/data/b.tif"
    (by decide) (by decide)

/-! ## Further `configparser` lemmas -/

theorem getSect_setOpt_self (c : Config) (s k v : String) (c' : Config) (kvs : Sect)
    (hget : getSect c s = some kvs) (hset : setOpt c s k v = some c') :
    getSect c' s = some (setKV kvs k v) := by
  induction c generalizing c' with
  | nil => simp [setOpt] at hset
  | cons hd t ih =>
    obtain ⟨sn, kv0⟩ := hd
    by_cases hs : sn = s
    · subst hs
      simp only [setOpt, eq_self_iff_true, if_true, Option.some.injEq] at hset
      simp only [getSect, alookup, eq_self_iff_true, if_true, Option.some.injEq] at hget
      subst hset
      subst hget
      simp [getSect, alookup]
    · simp only [setOpt, if_neg hs] at hset
      cases ht : setOpt t s k v with
      | none => simp [ht] at hset
      | some t' =>
        simp only [ht, Option.map_some', Option.some.injEq] at hset
        subst hset
        simp only [getSect, alookup, if_neg hs] at *
        exact ih t' hget ht

theorem alookup_filter_ne {β : Type} (l : List (String × β)) (k : String) :
    alookup (l.filter (fun kv => kv.1 ≠ k)) k = none := by
  induction l with
  | nil => simp [alookup]
  | cons hd t ih =>
    obtain ⟨k', v'⟩ := hd
    by_cases hk : k' = k <;> simp_all [List.filter_cons]

theorem alookup_filter_ne_other {β : Type} (l : List (String × β)) (k k' : String)
    (h : k' ≠ k) : alookup (l.filter (fun kv => kv.1 ≠ k)) k' = alookup l k' := by
  induction l with
  | nil => simp
  | cons hd t ih =>
    obtain ⟨k2, v2⟩ := hd
    by_cases hk : k2 = k <;> by_cases hk2 : k2 = k' <;>
      simp_all [List.filter_cons]

theorem getSect_removeOpt_ne (c : Config) (s k s' : String) (h : s' ≠ s) :
    getSect (removeOpt c s k) s' = getSect c s' := by
  induction c with
  | nil => rfl
  | cons hd t ih =>
    obtain ⟨sn, kvs⟩ := hd
    by_cases hs : sn = s
    · subst hs
      simp only [removeOpt, if_pos rfl, getSect, alookup]
      rw [if_neg (fun hh => h hh.symm), if_neg (fun hh => h hh.symm)]
      exact ih
    · simp only [removeOpt, if_neg hs, getSect, alookup] at *
      split
      · rfl
      · exact ih

theorem getSect_removeOpt_self (c : Config) (s k : String) :
    getSect (removeOpt c s k) s =
      (getSect c s).map (fun kvs => kvs.filter (fun kv => kv.1 ≠ k)) := by
  induction c with
  | nil => rfl
  | cons hd t ih =>
    obtain ⟨sn, kvs⟩ := hd
    by_cases hs : sn = s
    · subst hs
      simp [removeOpt, getSect, alookup]
    · simp only [removeOpt, if_neg hs, getSect, alookup] at *
      exact ih

theorem getOpt_removeOpt_self (c : Config) (s k : String) :
    getOpt (removeOpt c s k) s k = none := by
  unfold getOpt
  rw [getSect_removeOpt_self]
  cases h : getSect c s with
  | none => rfl
  | some kvs =>
    simp only [Option.map_some', Option.some_bind]
    exact alookup_filter_ne kvs k

theorem hasSect_removeOpt (c : Config) (s k s' : String) :
    hasSect (removeOpt c s k) s' = hasSect c s' := by
  unfold hasSect
  by_cases h : s' = s
  · subst h
    rw [getSect_removeOpt_self]
    cases getSect c s' <;> rfl
  · rw [getSect_removeOpt_ne c s k s' h]

theorem setOpt_some_of_getSect (c : Config) (s k v : String) (kvs : Sect)
    (hget : getSect c s = some kvs) : ∃ c', setOpt c s k v = some c' := by
  have h1 : hasSect c s = true := by unfold hasSect; rw [hget]; rfl
  have h2 := setOpt_isSome c s k v h1
  cases h : setOpt c s k v with
  | none => rw [h] at h2; simp at h2
  | some c' => exact ⟨c', rfl⟩

theorem setKV_append_cons (pre : Sect) (p s v : String) (rest : Sect)
    (hp : ∀ kv ∈ pre, kv.1 ≠ p) :
    setKV (pre ++ (p, s) :: rest) p v = pre ++ (p, v) :: rest := by
  induction pre with
  | nil => simp [setKV]
  | cons hd t ih =>
    obtain ⟨k0, v0⟩ := hd
    have hk0 : k0 ≠ p := hp (k0, v0) (by simp)
    have hstep : setKV (((k0, v0) :: t) ++ (p, s) :: rest) p v
        = (k0, v0) :: setKV (t ++ (p, s) :: rest) p v := by
      simp [setKV, hk0]
    rw [hstep, ih (fun kv hkv => hp kv (by simp [hkv]))]
    rfl

theorem restartLoop_spec (items : List (String × String)) :
    ∀ (job : Config) (pre : Sect) (count size : Nat),
    getSect job JOB_FILES = some (pre ++ items) →
    ((pre ++ items).map Prod.fst).Nodup →
    ∃ job', restartLoop items job count size
        = some (job', count + nErr items, size + nRun items) ∧
      getSect job' JOB_FILES = some (pre ++ items.map resetKV) ∧
      (∀ s, s ≠ JOB_FILES → getSect job' s = getSect job s) := by
  induction items with
  | nil =>
    intro job pre count size hget _hnd
    exact ⟨job, by simp [restartLoop, nErr, nRun], by simpa using hget,
      fun s _hs => rfl⟩
  | cons hd rest ih =>
    intro job pre count size hget hnd
    obtain ⟨p, st0⟩ := hd
    have hppre : ∀ kv ∈ pre, kv.1 ≠ p := by
      intro kv hkv hcontra
      have h1 : (pre.map Prod.fst).Disjoint (p :: rest.map Prod.fst) :=
        List.disjoint_of_nodup_append (by simpa using hnd)
      have hp1 : p ∈ pre.map Prod.fst := hcontra ▸ List.mem_map_of_mem Prod.fst hkv
      exact h1 hp1 (by simp)
    by_cases hE : st0 = JOB_ERROR
    · obtain ⟨job1, hset⟩ :=
        setOpt_some_of_getSect job JOB_FILES p JOB_RUNNING _ hget
      have hget1 : getSect job1 JOB_FILES = some (pre ++ (p, JOB_RUNNING) :: rest) := by
        rw [getSect_setOpt_self job JOB_FILES p JOB_RUNNING job1 _ hget hset,
          setKV_append_cons pre p st0 JOB_RUNNING rest hppre]
      have hget1' : getSect job1 JOB_FILES
          = some ((pre ++ [(p, JOB_RUNNING)]) ++ rest) := by
        rw [hget1]; simp
      have hnd1 : (((pre ++ [(p, JOB_RUNNING)]) ++ rest).map Prod.fst).Nodup := by
        simpa using hnd
      obtain ⟨job', hloop, hfiles', hframe⟩ :=
        ih job1 (pre ++ [(p, JOB_RUNNING)]) (count + 1) (size + 1) hget1' hnd1
      refine ⟨job', ?_, ?_, ?_⟩
      · have hstep : restartLoop ((p, st0) :: rest) job count size
            = restartLoop rest job1 (count + 1) (size + 1) := by
          simp [restartLoop, hE, hset]
        rw [hstep, hloop]
        have hc : count + 1 + nErr rest = count + nErr ((p, st0) :: rest) := by
          simp [nErr, List.filter_cons, hE]
          omega
        have hsz : size + 1 + nRun rest = size + nRun ((p, st0) :: rest) := by
          simp [nRun, List.filter_cons, hE]
          omega
        rw [hc, hsz]
      · rw [hfiles']
        simp [resetKV, hE]
      · intro s hs
        rw [hframe s hs, getSect_setOpt_ne job JOB_FILES p JOB_RUNNING s job1 hset hs]
    · have hget' : getSect job JOB_FILES = some ((pre ++ [(p, st0)]) ++ rest) := by
        rw [hget]; simp
      have hnd' : (((pre ++ [(p, st0)]) ++ rest).map Prod.fst).Nodup := by
        simpa using hnd
      by_cases hR : st0 = JOB_RUNNING
      · obtain ⟨job', hloop, hfiles', hframe⟩ :=
          ih job (pre ++ [(p, st0)]) count (size + 1) hget' hnd'
        refine ⟨job', ?_, ?_, hframe⟩
        · have hstep : restartLoop ((p, st0) :: rest) job count size
              = restartLoop rest job count (size + 1) := by
            simp [restartLoop, hE, hR, JOB_RUNNING, JOB_ERROR]
          rw [hstep, hloop]
          have hsz : size + 1 + nRun rest = size + nRun ((p, st0) :: rest) := by
            simp [nRun, List.filter_cons, hE, hR]
            omega
          have hc : count + nErr rest = count + nErr ((p, st0) :: rest) := by
            simp [nErr, List.filter_cons, hE]
          rw [hsz, hc]
        · rw [hfiles']
          simp [resetKV, hE]
      · obtain ⟨job', hloop, hfiles', hframe⟩ :=
          ih job (pre ++ [(p, st0)]) count size hget' hnd'
        refine ⟨job', ?_, ?_, hframe⟩
        · have hstep : restartLoop ((p, st0) :: rest) job count size
              = restartLoop rest job count size := by
            simp [restartLoop, hE, hR]
          rw [hstep, hloop]
          have hsz : size + nRun rest = size + nRun ((p, st0) :: rest) := by
            simp [nRun, List.filter_cons, hE, hR]
          have hc : count + nErr rest = count + nErr ((p, st0) :: rest) := by
            simp [nErr, List.filter_cons, hE]
          rw [hsz, hc]
        · rw [hfiles']
          simp [resetKV, hE]

theorem nRun_pos_iff_any (items : Sect) :
    nRun items ≠ 0 ↔
      items.any (fun kv => kv.2 = JOB_ERROR ∨ kv.2 = JOB_RUNNING) = true := by
  induction items with
  | nil => simp [nRun]
  | cons hd t ih =>
    by_cases h : (hd.2 = JOB_ERROR ∨ hd.2 = JOB_RUNNING) <;>
      simp_all [nRun, List.filter_cons, List.any_cons]

/-- **C7** (confirmed).  On a job file with an `Info` section and
distinct file paths, the restart operation resets exactly the `Error`
files to `Running` leaving every other status untouched, removes the
job-level `error` annotation, sets the `Info` status to `Running` when
at least one file is `Running` afterwards, leaves every other section
unchanged, and moves the job file to the `Running` directory exactly
when its current directory is not already that directory. -/
theorem C7_restart_clears_only_errors (archiveJob jobFile : String) (job : Config)
    (items : Sect)
    (hinfo : hasSect job JOB_INFO = true)
    (hfiles : getSect job JOB_FILES = some items)
    (hnd : (items.map Prod.fst).Nodup) :
    ∃ job' moved, restartJob archiveJob jobFile job = some (job', moved) ∧
      getSect job' JOB_FILES = some (items.map resetKV) ∧
      getOpt job' JOB_INFO "error" = none ∧
      (items.any (fun kv => kv.2 = JOB_ERROR ∨ kv.2 = JOB_RUNNING) = true →
        getOpt job' JOB_INFO "status" = some JOB_RUNNING) ∧
      (∀ s, s ≠ JOB_FILES → s ≠ JOB_INFO → getSect job' s = getSect job s) ∧
      (moved = true ↔ dirname jobFile ≠ pjoin archiveJob JOB_RUNNING) := by
  classical
  set job0 := if hasOpt job JOB_INFO "error" then removeOpt job JOB_INFO "error" else job
    with hjob0
  have hfiles0 : getSect job0 JOB_FILES = some items := by
    rw [hjob0]
    split
    · rw [getSect_removeOpt_ne job JOB_INFO "error" JOB_FILES (by decide)]
      exact hfiles
    · exact hfiles
  have herr0 : getOpt job0 JOB_INFO "error" = none := by
    rw [hjob0]
    split
    · exact getOpt_removeOpt_self job JOB_INFO "error"
    · rename_i hmiss
      unfold hasOpt at hmiss
      cases h : getOpt job JOB_INFO "error" with
      | none => rfl
      | some v => rw [h] at hmiss; simp at hmiss
  have hinfo0 : getSect job0 JOB_INFO = getSect job0 JOB_INFO := rfl
  have hframe0 : ∀ s, s ≠ JOB_INFO → getSect job0 s = getSect job s := by
    intro s hs
    rw [hjob0]
    split
    · exact getSect_removeOpt_ne job JOB_INFO "error" s hs
    · rfl
  have hinfoSect0 : hasSect job0 JOB_INFO = true := by
    rw [hjob0]
    split
    · rw [hasSect_removeOpt]
      exact hinfo
    · exact hinfo
  obtain ⟨job1, hloop, hfiles1, hframe1⟩ :=
    restartLoop_spec items job0 [] 0 0 (by simpa using hfiles0) (by simpa using hnd)
  have hinfo1 : getSect job1 JOB_INFO = getSect job0 JOB_INFO :=
    hframe1 JOB_INFO (by decide)
  have herr1 : getOpt job1 JOB_INFO "error" = none := by
    unfold getOpt
    unfold getOpt at herr0
    rw [hinfo1]
    exact herr0
  have hinfoSect1 : hasSect job1 JOB_INFO = true := by
    unfold hasSect
    unfold hasSect at hinfoSect0
    rw [hinfo1]
    exact hinfoSect0
  by_cases hsz : nRun items ≠ 0
  · obtain ⟨kvs1, hkvs1⟩ : ∃ kvs1, getSect job1 JOB_INFO = some kvs1 := by
      unfold hasSect at hinfoSect1
      cases h : getSect job1 JOB_INFO with
      | none => rw [h] at hinfoSect1; simp at hinfoSect1
      | some kvs1 => exact ⟨kvs1, rfl⟩
    obtain ⟨job2, hset2⟩ :=
      setOpt_some_of_getSect job1 JOB_INFO "status" JOB_RUNNING kvs1 hkvs1
    refine ⟨job2, decide (dirname jobFile ≠ pjoin archiveJob JOB_RUNNING),
      ?_, ?_, ?_, ?_, ?_, by simp⟩
    · unfold restartJob
      rw [← hjob0]
      simp only [hfiles0, hloop, Nat.zero_add]
      rw [if_pos hsz, hset2]
    · rw [getSect_setOpt_ne job1 JOB_INFO "status" JOB_RUNNING JOB_FILES job2 hset2
        (by decide)]
      simpa using hfiles1
    · rw [getOpt_setOpt_ne_key job1 JOB_INFO "status" JOB_RUNNING "error" job2 hset2
        (by decide)]
      exact herr1
    · intro _
      exact getOpt_setOpt_self job1 JOB_INFO "status" JOB_RUNNING job2 hset2
    · intro s hsF hsI
      rw [getSect_setOpt_ne job1 JOB_INFO "status" JOB_RUNNING s job2 hset2 hsI,
        hframe1 s hsF, hframe0 s hsI]
  · refine ⟨job1, decide (dirname jobFile ≠ pjoin archiveJob JOB_RUNNING),
      ?_, by simpa using hfiles1, herr1, ?_, ?_, by simp⟩
    · unfold restartJob
      rw [← hjob0]
      simp only [hfiles0, hloop, Nat.zero_add]
      rw [if_neg hsz]
    · intro hany
      exact absurd ((nRun_pos_iff_any items).2 hany) hsz
    · intro s hsF hsI
      rw [hframe1 s hsF, hframe0 s hsI]

/-- **C7** witness: restart applied to a concrete job
`{A: Finished, B: Error}` in the `Error` directory. -/
theorem C7_witness :
    ∃ job' moved,
      restartJob "/OMERO/Archive/Job" "/OMERO/Archive/Job/Error/job1"
        [("Info", [("error", "boom"), ("status", "Error")]),
         ("Files", [("/d/A", "Finished"), ("/d/B", "Error")])] = some (job', moved) ∧
      getSect job' JOB_FILES =
        some ([("/d/A", "Finished"), ("/d/B", "Error")].map resetKV) ∧
      getOpt job' JOB_INFO "error" = none ∧
      ([("/d/A", "Finished"), ("/d/B", "Error")].any
          (fun kv => kv.2 = JOB_ERROR ∨ kv.2 = JOB_RUNNING) = true →
        getOpt job' JOB_INFO "status" = some JOB_RUNNING) ∧
      (∀ s, s ≠ JOB_FILES → s ≠ JOB_INFO →
        getSect job' s =
          getSect [("Info", [("error", "boom"), ("status", "Error")]),
            ("Files", [("/d/A", "Finished"), ("/d/B", "Error")])] s) ∧
      (moved = true ↔
        dirname "/OMERO/Archive/Job/Error/job1" ≠
          pjoin "/OMERO/Archive/Job" JOB_RUNNING) :=
  C7_restart_clears_only_errors "/OMERO/Archive/Job" "/OMERO/Archive/Job/Error/job1"
    [("Info", [("error", "boom"), ("status", "Error")]),
     ("Files", [("/d/A", "Finished"), ("/d/B", "Error")])]
    [("/d/A", "Finished"), ("/d/B", "Error")]
    (by decide) (by decide) (by decide)

/-! ## Claim C8: declined-job record cleanup -/

/-- **C8** (confirmed).  When a declined job is processed, a path whose
archive record holds only the `Source` section has its record file
deleted (with no warning), while a record holding any section beyond the
first is kept untouched and a warning is logged. -/
theorem C8_declined_record_cleanup (archiveLog : String)
    (recs : List (String × Config)) (path : String) (cfg : Config)
    (hrec : alookup recs (get_ark_path archiveLog path) = some cfg) :
    (∀ kvs, cfg = [(ARK_SOURCE, kvs)] →
      alookup (cleanupDeclined archiveLog recs path).1
          (get_ark_path archiveLog path) = none ∧
      (cleanupDeclined archiveLog recs path).2.1 = false) ∧
    (1 < cfg.length →
      (cleanupDeclined archiveLog recs path).1 = recs ∧
      (cleanupDeclined archiveLog recs path).2.1 = true) := by
  constructor
  · intro kvs hcfg
    subst hcfg
    simp only [cleanupDeclined, hrec]
    norm_num
    exact alookup_aerase recs (get_ark_path archiveLog path)
  · intro hlen
    simp only [cleanupDeclined, hrec]
    rw [if_pos hlen]
    exact ⟨rfl, rfl⟩

/-- **C8** witness: both behaviours at concrete records — a
`Source`-only record is deleted; a record that also has a
`File Archiver` section is preserved with a warning. -/
theorem C8_witness :
    (alookup
        (cleanupDeclined "/log"
          [("/log/d/X.ark", [("Source", [("image", "1")])])] "/d/X").1
        (get_ark_path "/log" "/d/X") = none ∧
      (cleanupDeclined "/log"
        [("/log/d/X.ark", [("Source", [("image", "1")])])] "/d/X").2.1 = false) ∧
    ((cleanupDeclined "/log"
        [("/log/d/X.ark",
          [("Source", [("image", "1")]), ("File Archiver", [("md5", "x")])])]
        "/d/X").1 =
      [("/log/d/X.ark",
        [("Source", [("image", "1")]), ("File Archiver", [("md5", "x")])])] ∧
      (cleanupDeclined "/log"
        [("/log/d/X.ark",
          [("Source", [("image", "1")]), ("File Archiver", [("md5", "x")])])]
        "/d/X").2.1 = true) :=
  ⟨(C8_declined_record_cleanup "/log"
      [("/log/d/X.ark", [("Source", [("image", "1")])])] "/d/X"
      [(ARK_SOURCE, [("image", "1")])] (by decide)).1 [("image", "1")] (by decide),
   (C8_declined_record_cleanup "/log"
      [("/log/d/X.ark",
        [("Source", [("image", "1")]), ("File Archiver", [("md5", "x")])])] "/d/X"
      [("Source", [("image", "1")]), ("File Archiver", [("md5", "x")])]
      (by decide)).2 (by decide)⟩

/-! ## Lemmas on `pjoin` and `basename` -/

theorem takeWhile_append_of_all {p : Char → Bool} (l1 l2 : List Char)
    (h : ∀ x ∈ l1, p x = true) :
    (l1 ++ l2).takeWhile p = l1 ++ l2.takeWhile p := by
  induction l1 with
  | nil => simp
  | cons c t ih =>
    have hc : p c = true := h c (by simp)
    simp only [List.cons_append, List.takeWhile_cons, hc, if_true]
    rw [ih (fun x hx => h x (by simp [hx]))]

theorem takeWhile_all {p : Char → Bool} (l : List Char)
    (h : ∀ x ∈ l, p x = true) : l.takeWhile p = l := by
  induction l with
  | nil => rfl
  | cons c t ih =>
    have hc : p c = true := h c (by simp)
    simp only [List.takeWhile_cons, hc, if_true]
    rw [ih (fun x hx => h x (by simp [hx]))]

theorem mk_data (s : String) : String.mk s.data = s := rfl

theorem pjoin_ne_empty (a b : String) (hb : b ≠ "") : pjoin a b ≠ "" := by
  have hbd : b.data ≠ [] := fun hh => hb (String.ext hh)
  intro hcontra
  have hd : (pjoin a b).data = [] := hcontra ▸ rfl
  unfold pjoin at hd
  split at hd
  · exact hbd hd
  · split at hd
    · rw [String.data_append] at hd
      exact hbd (List.append_eq_nil.mp hd).2
    · rw [String.data_append, String.data_append] at hd
      exact hbd (List.append_eq_nil.mp hd).2

theorem basename_pjoin (a b : String)
    (hslash : ∀ c ∈ b.data, c ≠ '/') : basename (pjoin a b) = b := by
  have hball : ∀ x ∈ b.data.reverse, (fun c => decide (c ≠ '/')) x = true := by
    intro x hx
    simp only [decide_eq_true_eq]
    exact hslash x (List.mem_reverse.mp hx)
  have habs : isabs b = false := by
    unfold isabs
    cases hbd : b.data with
    | nil => rfl
    | cons c t =>
      have : c ≠ '/' := hslash c (by rw [hbd]; simp)
      simpa using this
  have hdone : ∀ rest : List Char,
      rest.takeWhile (fun c => decide (c ≠ '/')) = [] →
      String.mk ((b.data.reverse ++ rest).takeWhile
        (fun c => decide (c ≠ '/'))).reverse = b := by
    intro rest hrest
    rw [takeWhile_append_of_all b.data.reverse rest hball, hrest,
      List.append_nil, List.reverse_reverse, mk_data]
  unfold pjoin
  rw [habs]
  simp only [Bool.false_eq_true, if_false]
  split
  · rename_i hcase
    unfold basename
    rw [String.data_append, List.reverse_append]
    cases hcase with
    | inl hA =>
      subst hA
      have h0 : ("" : String).data.reverse = [] := rfl
      rw [h0]
      exact hdone [] rfl
    | inr hS =>
      apply hdone
      have hlast : a.data.getLast? = some '/' := of_decide_eq_true hS
      cases har : a.data.reverse with
      | nil => rfl
      | cons c t =>
        have hc : c = '/' := by
          have h1 : a.data.reverse.head? = a.data.getLast? := List.head?_reverse a.data
          rw [har, hlast] at h1
          exact (Option.some.injEq .. ▸ h1)
        subst hc
        rw [List.takeWhile_cons]
        simp
  · unfold basename
    rw [String.data_append, List.reverse_append]
    apply hdone
    have h1 : (a ++ "/").data.reverse = '/' :: a.data.reverse := by
      rw [String.data_append, List.reverse_append]
      rfl
    rw [h1, List.takeWhile_cons]
    simp

/-! ## Claim C3: batch fail-fast -/

theorem getOpt_congr_sect (c c' : Config) (s k : String)
    (h : getSect c' s = getSect c s) : getOpt c' s k = getOpt c s k := by
  unfold getOpt
  rw [h]

/-- **C3** (confirmed).  For a job whose `Files` section is
`[A, B, C]`, all `Running`, with nothing memoised from earlier jobs in
the sweep: when processing `A` succeeds with `Finished` and processing
`B` raises, `process_job` never invokes `process` on `C`, records
`A = Finished, B = Error, C = Running`, sets the job's `Info` status to
`Error` with the error message recorded, and relocates the job file to
the `Error` directory. -/
theorem C3_batch_fail_fast (env : JobEnv) (proc : String → PRes)
    (job : Config) (A B C : String) (e : PyErr)
    (hinfo : hasSect job JOB_INFO = true)
    (hfiles : getSect job JOB_FILES =
      some [(A, JOB_RUNNING), (B, JOB_RUNNING), (C, JOB_RUNNING)])
    (hAB : A ≠ B) (hAC : A ≠ C) (hBC : B ≠ C)
    (hprocA : proc A = .ok JOB_FINISHED) (hprocB : proc B = .exc e) :
    ∃ out, processJob env proc job [] = some out ∧
      out.calls = [A, B] ∧
      C ∉ out.calls ∧
      getSect out.job JOB_FILES =
        some [(A, JOB_FINISHED), (B, JOB_ERROR), (C, JOB_RUNNING)] ∧
      getOpt out.job JOB_INFO "status" = some JOB_ERROR ∧
      getOpt out.job JOB_INFO "error" = some (pyErrMsg e) ∧
      out.movedTo = some (pjoin env.archiveJob JOB_ERROR) := by
  classical
  set job0 := if hasOpt job JOB_INFO "error" then removeOpt job JOB_INFO "error" else job
    with hjob0
  have hfiles0 : getSect job0 JOB_FILES =
      some [(A, JOB_RUNNING), (B, JOB_RUNNING), (C, JOB_RUNNING)] := by
    rw [hjob0]
    split
    · rw [getSect_removeOpt_ne job JOB_INFO "error" JOB_FILES (by decide)]
      exact hfiles
    · exact hfiles
  have hinfoSect0 : hasSect job0 JOB_INFO = true := by
    rw [hjob0]
    split
    · rw [hasSect_removeOpt]
      exact hinfo
    · exact hinfo
  obtain ⟨kvs0, hkvs0⟩ : ∃ kvs, getSect job0 JOB_INFO = some kvs := by
    unfold hasSect at hinfoSect0
    cases h : getSect job0 JOB_INFO with
    | none => rw [h] at hinfoSect0; simp at hinfoSect0
    | some kvs => exact ⟨kvs, rfl⟩
  obtain ⟨jobA, hsetA⟩ :=
    setOpt_some_of_getSect job0 JOB_INFO "status" JOB_RUNNING kvs0 hkvs0
  have hfilesA : getSect jobA JOB_FILES =
      some [(A, JOB_RUNNING), (B, JOB_RUNNING), (C, JOB_RUNNING)] := by
    rw [getSect_setOpt_ne job0 JOB_INFO "status" JOB_RUNNING JOB_FILES jobA hsetA
      (by decide)]
    exact hfiles0
  have hinfoA : getSect jobA JOB_INFO = some (setKV kvs0 "status" JOB_RUNNING) :=
    getSect_setOpt_self job0 JOB_INFO "status" JOB_RUNNING jobA kvs0 hkvs0 hsetA
  obtain ⟨jobB, hsetB⟩ :=
    setOpt_some_of_getSect jobA JOB_FILES A JOB_FINISHED _ hfilesA
  have hfilesB : getSect jobB JOB_FILES =
      some [(A, JOB_FINISHED), (B, JOB_RUNNING), (C, JOB_RUNNING)] := by
    rw [getSect_setOpt_self jobA JOB_FILES A JOB_FINISHED jobB _ hfilesA hsetB]
    simp [setKV]
  have hinfoB : getSect jobB JOB_INFO = some (setKV kvs0 "status" JOB_RUNNING) := by
    rw [getSect_setOpt_ne jobA JOB_FILES A JOB_FINISHED JOB_INFO jobB hsetB
      (by decide)]
    exact hinfoA
  obtain ⟨jobC, hsetC⟩ :=
    setOpt_some_of_getSect jobB JOB_INFO "error" (pyErrMsg e) _ hinfoB
  have hfilesC : getSect jobC JOB_FILES =
      some [(A, JOB_FINISHED), (B, JOB_RUNNING), (C, JOB_RUNNING)] := by
    rw [getSect_setOpt_ne jobB JOB_INFO "error" (pyErrMsg e) JOB_FILES jobC hsetC
      (by decide)]
    exact hfilesB
  have herrC : getOpt jobC JOB_INFO "error" = some (pyErrMsg e) :=
    getOpt_setOpt_self jobB JOB_INFO "error" (pyErrMsg e) jobC hsetC
  obtain ⟨jobD, hsetD⟩ :=
    setOpt_some_of_getSect jobC JOB_FILES B JOB_ERROR _ hfilesC
  have hfilesD : getSect jobD JOB_FILES =
      some [(A, JOB_FINISHED), (B, JOB_ERROR), (C, JOB_RUNNING)] := by
    rw [getSect_setOpt_self jobC JOB_FILES B JOB_ERROR jobD _ hfilesC hsetD]
    simp [setKV, hAB]
  have herrD : getOpt jobD JOB_INFO "error" = some (pyErrMsg e) := by
    rw [getOpt_congr_sect jobC jobD JOB_INFO "error"
      (getSect_setOpt_ne jobC JOB_FILES B JOB_ERROR JOB_INFO jobD hsetD (by decide))]
    exact herrC
  have hinfoD : getSect jobD JOB_INFO = getSect jobC JOB_INFO :=
    getSect_setOpt_ne jobC JOB_FILES B JOB_ERROR JOB_INFO jobD hsetD (by decide)
  obtain ⟨kvsD, hkvsD⟩ : ∃ kvs, getSect jobD JOB_INFO = some kvs := by
    rw [hinfoD]
    exact ⟨_, getSect_setOpt_self jobB JOB_INFO "error" (pyErrMsg e) jobC _ hinfoB hsetC⟩
  obtain ⟨jobE, hsetE⟩ :=
    setOpt_some_of_getSect jobD JOB_INFO "complete" env.completeTime kvsD hkvsD
  have hinfoE : getSect jobE JOB_INFO = some (setKV kvsD "complete" env.completeTime) :=
    getSect_setOpt_self jobD JOB_INFO "complete" env.completeTime jobE kvsD hkvsD hsetE
  obtain ⟨jobF, hsetF⟩ :=
    setOpt_some_of_getSect jobE JOB_INFO "status" JOB_ERROR _ hinfoE
  have hFR : JOB_FINISHED ≠ JOB_RUNNING := by decide
  have hFE : JOB_FINISHED ≠ JOB_ERROR := by decide
  have hloop : jobLoop proc
      [(A, JOB_RUNNING), (B, JOB_RUNNING), (C, JOB_RUNNING)] jobA [] [] 0 []
      = some (jobD, [(A, JOB_FINISHED), (B, JOB_ERROR)], [A], 0, true, [A, B]) := by
    simp [jobLoop, hprocA, hprocB, hsetB, hsetC, hsetD, hAB, hFR, hFE, ainsert]
  refine ⟨⟨jobF, [(A, JOB_FINISHED), (B, JOB_ERROR)], [A], [A, B],
      some (pjoin env.archiveJob JOB_ERROR)⟩, ?_, rfl, ?_, ?_, ?_, ?_, rfl⟩
  · unfold processJob
    rw [← hjob0]
    simp only [hfiles0]
    have hne : pjoin env.archiveJob JOB_ERROR ≠ "" :=
      pjoin_ne_empty env.archiveJob JOB_ERROR (by decide)
    have hbn : basename (pjoin env.archiveJob JOB_ERROR) = JOB_ERROR :=
      basename_pjoin env.archiveJob JOB_ERROR (by decide)
    simp [hsetA, hloop, hne, hbn, hsetE, hsetF]
  · simp [hAC.symm, hBC.symm]
  · rw [getSect_setOpt_ne jobE JOB_INFO "status" JOB_ERROR JOB_FILES jobF hsetF
      (by decide),
      getSect_setOpt_ne jobD JOB_INFO "complete" env.completeTime JOB_FILES jobE hsetE
      (by decide)]
    exact hfilesD
  · exact getOpt_setOpt_self jobE JOB_INFO "status" JOB_ERROR jobF hsetF
  · rw [getOpt_setOpt_ne_key jobE JOB_INFO "status" JOB_ERROR "error" jobF hsetF
      (by decide),
      getOpt_setOpt_ne_key jobD JOB_INFO "complete" env.completeTime "error" jobE hsetE
      (by decide)]
    exact herrD

/-- **C3** witness: a concrete job `[A, B, C]` all `Running`, with `A`
archiving successfully and `B` raising. -/
theorem C3_witness :
    ∃ out, processJob ⟨"/OMERO/Archive/Job", "NOW"⟩
        (fun p => if p = "/d/A" then .ok JOB_FINISHED
          else if p = "/d/B" then .exc (.exception "boom") else .ok JOB_FINISHED)
        [("Info", [("email", "u@x")]),
         ("Files", [("/d/A", JOB_RUNNING), ("/d/B", JOB_RUNNING),
                    ("/d/C", JOB_RUNNING)])]
        [] = some out ∧
      out.calls = ["/d/A", "/d/B"] ∧
      "/d/C" ∉ out.calls ∧
      getSect out.job JOB_FILES =
        some [("/d/A", JOB_FINISHED), ("/d/B", JOB_ERROR), ("/d/C", JOB_RUNNING)] ∧
      getOpt out.job JOB_INFO "status" = some JOB_ERROR ∧
      getOpt out.job JOB_INFO "error" = some (pyErrMsg (.exception "boom")) ∧
      out.movedTo = some (pjoin "/OMERO/Archive/Job" JOB_ERROR) :=
  C3_batch_fail_fast ⟨"/OMERO/Archive/Job", "NOW"⟩
    (fun p => if p = "/d/A" then .ok JOB_FINISHED
      else if p = "/d/B" then .exc (.exception "boom") else .ok JOB_FINISHED)
    [("Info", [("email", "u@x")]),
     ("Files", [("/d/A", JOB_RUNNING), ("/d/B", JOB_RUNNING),
                ("/d/C", JOB_RUNNING)])]
    "/d/A" "/d/B" "/d/C" (.exception "boom")
    (by decide) (by decide) (by decide) (by decide) (by decide)
    (by decide) (by decide)

/-! ## Claim C4: the symlink skip raises `NameError` -/

/-- **C4** (code bug).  On a source path that is a symlink, both
archiver scripts reach `warn("Skipping symlink: ...")` before their
`return JOB_IGNORE`; neither module defines or imports `warn`, so the
call raises `NameError` instead of returning `Ignore`.  The state is
untouched (no I/O, no record write), but the claimed `Ignore` return is
never reached. -/
theorem C4_symlink_raises_NameError :
    processFile testFileEnv symlinkSt "/data/img.tif"
      = (.exc (.nameError "warn"), symlinkSt) ∧
    processArk testArkEnvSilent symlinkSt "/data/img.tif"
      = (.exc (.nameError "warn"), symlinkSt) ∧
    (processFile testFileEnv symlinkSt "/data/img.tif").1 ≠ .ok JOB_IGNORE ∧
    (processArk testArkEnvSilent symlinkSt "/data/img.tif").1 ≠ .ok JOB_IGNORE := by
  refine ⟨rfl, rfl, ?_, ?_⟩ <;> decide

/-! ## Claim C1: the pure-resume path crashes before verification -/

/-- **C1** (code bug).  In `archive_to_file.py`, when the destination
file already exists and the record holds all digests and the size (the
claim's interruption point), `process` takes neither the copy branch nor
the recompute branch, so the locals `blocksize` and `adler32sum` are
never assigned; the verification read at line 350 then raises
`UnboundLocalError`.  The source is not re-copied (the filesystem is
unchanged, as the claim demands) but verification never completes: the
record is rewritten unchanged by the `finally` block and the exception
propagates. -/
theorem C1_resume_crashes_before_verification :
    processFile testFileEnv resumeSt "/data/img.tif"
      = (.exc (.unboundLocalError "blocksize"),
         { resumeSt with
            recWrites := [("/log/data/img.tif.ark",
              [("Source", [("image", "1")]),
               ("File Archiver",
                [("md5", "md5-6"), ("sha256", "sha-7"), ("adler32", "8"),
                 ("size", "3"), ("path", "/arch/data/img.tif"),
                 ("copied", "ctime-900"), ("timestamp", "900")])])] }) ∧
    (processFile testFileEnv resumeSt "/data/img.tif").2.fs = resumeSt.fs ∧
    isExc (processFile testFileEnv resumeSt "/data/img.tif").1 = true := by
  refine ⟨?_, by decide, by decide⟩
  decide

/-! ## Section-presence and frame lemmas for the transfer processes -/

theorem getSect_addSect_missing (c : Config) (s : String) (h : hasSect c s = false) :
    getSect (addSect c s) s = some [] := by
  induction c with
  | nil => simp [addSect, getSect, alookup]
  | cons hd t ih =>
    obtain ⟨sn, kvs⟩ := hd
    by_cases hs : sn = s
    · simp [hasSect, getSect, alookup, hs] at h
    · simp only [hasSect, getSect, alookup, if_neg hs] at h
      simp only [addSect, List.cons_append, getSect, alookup, if_neg hs] at *
      exact ih h

theorem hasSect_ensureSect (c : Config) (s : String) :
    hasSect (ensureSect c s) s = true := by
  unfold ensureSect
  split
  · assumption
  · rename_i h
    unfold hasSect
    rw [getSect_addSect_missing c s (by simpa using h)]
    rfl

theorem getSect_ensureSect_ne (c : Config) (s t : String) (h : t ≠ s) :
    getSect (ensureSect c s) t = getSect c t := by
  unfold ensureSect
  split
  · rfl
  · exact getSect_addSect_ne c s t h

theorem getOpt_ensureSect (c : Config) (s k : String) :
    getOpt (ensureSect c s) s k = getOpt c s k := by
  unfold ensureSect
  split
  · rfl
  · rename_i h
    unfold getOpt
    rw [getSect_addSect_missing c s (by simpa using h)]
    have h0 : getSect c s = none := by
      unfold hasSect at h
      cases hh : getSect c s with
      | none => rfl
      | some kvs => rw [hh] at h; simp at h
    rw [h0]
    rfl

theorem hasSect_of_setOpt_some (c : Config) (s k v : String) (c' : Config)
    (hset : setOpt c s k v = some c') : ∃ kvs, getSect c s = some kvs := by
  induction c generalizing c' with
  | nil => simp [setOpt] at hset
  | cons hd t2 ih =>
    obtain ⟨sn, kvs0⟩ := hd
    by_cases hs : sn = s
    · exact ⟨kvs0, by simp [getSect, alookup, hs]⟩
    · simp only [setOpt, if_neg hs] at hset
      cases hh : setOpt t2 s k v with
      | none => simp [hh] at hset
      | some t' =>
        obtain ⟨kvs, hkvs⟩ := ih t' hh
        refine ⟨kvs, ?_⟩
        simp only [getSect, alookup, if_neg hs]
        exact hkvs

theorem hasSect_setOpt (c : Config) (s k v : String) (c' : Config) (t : String)
    (hset : setOpt c s k v = some c') : hasSect c' t = hasSect c t := by
  by_cases ht : t = s
  · subst ht
    obtain ⟨kvs, hkvs⟩ := hasSect_of_setOpt_some c t k v c' hset
    unfold hasSect
    rw [getSect_setOpt_self c t k v c' kvs hkvs hset, hkvs]
    rfl
  · unfold hasSect
    rw [getSect_setOpt_ne c s k v t c' hset ht]

theorem setMany_isSome (kvs : List (String × String)) (c : Config) (s : String)
    (h : hasSect c s = true) : (setMany c s kvs).isSome := by
  induction kvs generalizing c with
  | nil => simp [setMany]
  | cons hd t ih =>
    obtain ⟨k, v⟩ := hd
    simp only [setMany]
    have h1 := setOpt_isSome c s k v h
    cases hh : setOpt c s k v with
    | none => rw [hh] at h1; simp at h1
    | some c1 =>
      simp only [Option.some_bind]
      exact ih c1 ((hasSect_setOpt c s k v c1 s hh).symm ▸ h)

theorem setMany_some_of_hasSect (kvs : List (String × String)) (c : Config)
    (s : String) (h : hasSect c s = true) : ∃ c', setMany c s kvs = some c' := by
  have h1 := setMany_isSome kvs c s h
  cases hh : setMany c s kvs with
  | none => rw [hh] at h1; simp at h1
  | some c' => exact ⟨c', rfl⟩

theorem fileVerify_st (env : FileEnv) (st : St) (cfg : Config)
    (path arkPath m s2 : String) (a : Nat) :
    (trySt (fileVerify env st cfg path arkPath m s2 a)).recs = st.recs ∧
    (trySt (fileVerify env st cfg path arkPath m s2 a)).recWrites = st.recWrites := by
  unfold fileVerify
  dsimp only
  split
  · exact ⟨rfl, rfl⟩
  · split
    · exact ⟨rfl, rfl⟩
    · split
      · exact ⟨rfl, rfl⟩
      · exact ⟨rfl, rfl⟩

theorem fileTry_st (env : FileEnv) (st : St) (cfg : Config) (path : String)
    (content : List Nat) :
    (trySt (fileTry env st cfg path content)).recs = st.recs ∧
    (trySt (fileTry env st cfg path content)).recWrites = st.recWrites := by
  unfold fileTry
  dsimp only
  split
  · split
    · exact ⟨rfl, rfl⟩
    · exact fileVerify_st env _ _ path _ _ _ _
  · split
    · split
      · exact ⟨rfl, rfl⟩
      · exact fileVerify_st env _ _ path _ _ _ _
    · exact ⟨rfl, rfl⟩

theorem arkVerify_st (env : ArkEnv) (st : St) (cfg : Config)
    (path relPath arkPath m : String) (szV : PyScalar) (timestamp : Nat)
    (fileCopied : Bool) :
    (trySt (arkVerify env st cfg path relPath arkPath m szV timestamp fileCopied)).recs
      = st.recs ∧
    (trySt (arkVerify env st cfg path relPath arkPath m szV timestamp
      fileCopied)).recWrites = st.recWrites := by
  unfold arkVerify
  dsimp only
  split
  · split
    · exact ⟨rfl, rfl⟩
    · exact ⟨rfl, rfl⟩
  · split
    · exact ⟨rfl, rfl⟩
    · split
      · exact ⟨rfl, rfl⟩
      · split
        · exact ⟨rfl, rfl⟩
        · split
          · exact ⟨rfl, rfl⟩
          · split
            · split
              · exact ⟨rfl, rfl⟩
              · exact ⟨rfl, rfl⟩
            · exact ⟨rfl, rfl⟩

theorem arkTry_st (env : ArkEnv) (st : St) (cfg : Config) (path : String)
    (content : List Nat) :
    (trySt (arkTry env st cfg path content)).recs = st.recs ∧
    (trySt (arkTry env st cfg path content)).recWrites = st.recWrites := by
  unfold arkTry
  dsimp only
  split
  · split
    · exact ⟨rfl, rfl⟩
    · exact arkVerify_st env _ _ path _ _ _ _ _ _
  · split
    · split
      · exact ⟨rfl, rfl⟩
      · split
        · exact ⟨rfl, rfl⟩
        · exact arkVerify_st env _ _ path _ _ _ _ _ _
    · exact arkVerify_st env _ _ path _ _ _ _ _ _

/-- **C6** (confirmed).  Whenever either `process` reaches its transfer
stage (the source is a regular file and the archive record exists), the
`try`/`finally` structure rewrites the record file on every exit path —
normal returns and raised exceptions alike — with exactly the in-memory
config at the exit of the `try` block (`tryCfg` of the try-block run on
the same inputs): exactly one record write happens during the call, it
targets the file's record path, its content is that exit config — so
partial progress mutated into the config before a raise is persisted,
never the stale pre-call record — and the record store afterwards holds
exactly that config. -/
theorem C6_record_persisted_on_every_exit :
    (∀ (env : FileEnv) (st : St) (path : String) (content : List Nat) (cfg0 : Config),
      alookup st.fs path = some (.regular content) →
      alookup st.recs (get_ark_path env.archiveLog path) = some cfg0 →
      (processFile env st path).2.recWrites
          = (get_ark_path env.archiveLog path,
             tryCfg (fileTry env st (ensureSect cfg0 ARK_FILE_ARCHIVER) path content))
            :: st.recWrites ∧
      alookup (processFile env st path).2.recs (get_ark_path env.archiveLog path)
          = some (tryCfg (fileTry env st (ensureSect cfg0 ARK_FILE_ARCHIVER)
              path content))) ∧
    (∀ (env : ArkEnv) (st : St) (path : String) (content : List Nat) (cfg0 : Config),
      alookup st.fs path = some (.regular content) →
      alookup st.recs (get_ark_path env.archiveLog path) = some cfg0 →
      (processArk env st path).2.recWrites
          = (get_ark_path env.archiveLog path,
             tryCfg (arkTry env st (ensureSect cfg0 ARK_ARKIVUM_ARCHIVER) path content))
            :: st.recWrites ∧
      alookup (processArk env st path).2.recs (get_ark_path env.archiveLog path)
          = some (tryCfg (arkTry env st (ensureSect cfg0 ARK_ARKIVUM_ARCHIVER)
              path content))) := by
  constructor
  · intro env st path content cfg0 hsrc hrec
    unfold processFile
    rw [hsrc]
    simp only [hrec]
    rcases hft : fileTry env st (ensureSect cfg0 ARK_FILE_ARCHIVER) path content with
      ⟨e, cfg, st'⟩ | ⟨archived, cfg, st'⟩
    · have h2 := (fileTry_st env st (ensureSect cfg0 ARK_FILE_ARCHIVER) path content).2
      rw [hft] at h2
      rw [show (trySt (Sum.inl (e, cfg, st') : TryRes)) = st' from rfl] at h2
      constructor
      · simp only [writeRec, tryCfg]
        rw [h2]
      · simp only [writeRec, tryCfg]
        exact alookup_ainsert st'.recs (get_ark_path env.archiveLog path) cfg
    · have h2 := (fileTry_st env st (ensureSect cfg0 ARK_FILE_ARCHIVER) path content).2
      rw [hft] at h2
      rw [show (trySt (Sum.inr (archived, cfg, st') : TryRes)) = st' from rfl] at h2
      constructor
      · simp only [writeRec, tryCfg]
        rw [h2]
      · simp only [writeRec, tryCfg]
        exact alookup_ainsert st'.recs (get_ark_path env.archiveLog path) cfg
  · intro env st path content cfg0 hsrc hrec
    unfold processArk
    rw [hsrc]
    simp only [hrec]
    rcases hft : arkTry env st (ensureSect cfg0 ARK_ARKIVUM_ARCHIVER) path content with
      ⟨e, cfg, st'⟩ | ⟨archived, cfg, st'⟩
    · have h2 := (arkTry_st env st (ensureSect cfg0 ARK_ARKIVUM_ARCHIVER) path content).2
      rw [hft] at h2
      rw [show (trySt (Sum.inl (e, cfg, st') : TryRes)) = st' from rfl] at h2
      constructor
      · simp only [writeRec, tryCfg]
        rw [h2]
      · simp only [writeRec, tryCfg]
        exact alookup_ainsert st'.recs (get_ark_path env.archiveLog path) cfg
    · have h2 := (arkTry_st env st (ensureSect cfg0 ARK_ARKIVUM_ARCHIVER) path content).2
      rw [hft] at h2
      rw [show (trySt (Sum.inr (archived, cfg, st') : TryRes)) = st' from rfl] at h2
      constructor
      · simp only [writeRec, tryCfg]
        rw [h2]
      · simp only [writeRec, tryCfg]
        exact alookup_ainsert st'.recs (get_ark_path env.archiveLog path) cfg

/-- **C6** witness: the file archiver on the concrete corrupt-destination
state — the call raises on the checksum mismatch, yet the record written
by the `finally` block is the try-block exit config, which already holds
the digests recomputed during this very call (partial progress persisted,
not the stale `Source`-only record). -/
theorem C6_witness :
    ((processFile testFileEnv corruptDestSt "/data/img.tif").2.recWrites
        = (get_ark_path testFileEnv.archiveLog "/data/img.tif",
           tryCfg (fileTry testFileEnv corruptDestSt
             (ensureSect [("Source", [("image", "1")])] ARK_FILE_ARCHIVER)
             "/data/img.tif" [1, 2, 3])) :: corruptDestSt.recWrites ∧
      alookup (processFile testFileEnv corruptDestSt "/data/img.tif").2.recs
        (get_ark_path testFileEnv.archiveLog "/data/img.tif")
        = some (tryCfg (fileTry testFileEnv corruptDestSt
            (ensureSect [("Source", [("image", "1")])] ARK_FILE_ARCHIVER)
            "/data/img.tif" [1, 2, 3]))) ∧
    isExc (processFile testFileEnv corruptDestSt "/data/img.tif").1 = true ∧
    getOpt (tryCfg (fileTry testFileEnv corruptDestSt
        (ensureSect [("Source", [("image", "1")])] ARK_FILE_ARCHIVER)
        "/data/img.tif" [1, 2, 3])) ARK_FILE_ARCHIVER "md5"
      = some (testMd5 [1, 2, 3]) :=
  ⟨C6_record_persisted_on_every_exit.1 testFileEnv corruptDestSt "/data/img.tif"
    [1, 2, 3] [("Source", [("image", "1")])] (by decide) (by decide),
   by decide, by decide⟩

/-- **C5** counterexample to the claim as stated: with no remote record
and 9100 seconds elapsed since the recorded copy (beyond the 600-second
grace window), `process` raises `Exception` instead of returning
`Running`. -/
theorem C5_counterexample :
    (processArk testArkEnvSilent arkResumeSt "/data/img.tif").1
      = .exc (.exception "No file information available from Arkivum") ∧
    (processArk testArkEnvSilent arkResumeSt "/data/img.tif").1 ≠ .ok JOB_RUNNING := by
  constructor
  · decide
  · decide

/-- **C5** (corrected).  When the remote info API reports no record for
the file (in the resume scenario: destination present, record digests
and size complete), `process` returns `Running` only when the file was
copied in this same invocation or less than 600 seconds have passed
since the recorded copy timestamp; beyond that grace window the
condition is escalated to a raised `Exception` — it is not merely logged
and returned as `Running`. -/
theorem C5_no_remote_record_grace_window (env : ArkEnv) (st : St) (path : String)
    (content : List Nat) (cfg0 : Config) (m a szs : String) (n : Nat)
    (hsrc : alookup st.fs path = some (.regular content))
    (hrec : alookup st.recs (get_ark_path env.archiveLog path) = some cfg0)
    (hsect : hasSect cfg0 ARK_ARKIVUM_ARCHIVER = true)
    (hdest : pexists st (arkDestPathOf env path) = true)
    (hmd5 : getOpt cfg0 ARK_ARKIVUM_ARCHIVER "md5" = some m) (hm : m ≠ "")
    (hadl : getOpt cfg0 ARK_ARKIVUM_ARCHIVER "adler32" = some a) (ha : a ≠ "")
    (hsize : getOpt cfg0 ARK_ARKIVUM_ARCHIVER "size" = some szs)
    (hszp : parseNat? szs = some n) (hn : n ≠ 0)
    (hremote : env.remote (arkRelPathOf env path) = none) :
    (env.now - loadTimestamp cfg0 ARK_ARKIVUM_ARCHIVER < 600 →
      (processArk env st path).1 = .ok JOB_RUNNING) ∧
    (600 ≤ env.now - loadTimestamp cfg0 ARK_ARKIVUM_ARCHIVER →
      (processArk env st path).1
        = .exc (.exception "No file information available from Arkivum")) := by
  have hens : ensureSect cfg0 ARK_ARKIVUM_ARCHIVER = cfg0 := by
    unfold ensureSect
    rw [if_pos hsect]
  have hresume : arkTry env st cfg0 path content
      = arkVerify env st cfg0 path (arkRelPathOf env path) (arkDestPathOf env path)
          m (.pint n) (loadTimestamp cfg0 ARK_ARKIVUM_ARCHIVER) false := by
    unfold arkTry
    rw [if_neg (by simp [hdest])]
    rw [if_neg (by
      simp only [loadSize, hsize, hszp, truthy, struthy, hmd5, hadl]
      simp [hm, ha, hn])]
    simp only [loadSize, hsize, hszp, hmd5]
    rfl
  constructor
  · intro hgrace
    unfold processArk
    rw [hsrc]
    simp only [hrec, hens, hresume]
    unfold arkVerify
    rw [hremote]
    simp only [Bool.false_eq_true, false_or, if_pos hgrace]
    rfl
  · intro hlate
    unfold processArk
    rw [hsrc]
    simp only [hrec, hens, hresume]
    unfold arkVerify
    rw [hremote]
    have hnot : ¬ (env.now - loadTimestamp cfg0 ARK_ARKIVUM_ARCHIVER < 600) :=
      Nat.not_lt.mpr hlate
    simp only [Bool.false_eq_true, false_or, if_neg hnot]

/-- **C5** witness: the amended theorem at a clock 100 seconds after the
recorded copy — inside the grace window the result is `Running`, and the
late-side implication is vacuously discharged. -/
theorem C5_witness :
    (({ testArkEnvSilent with now := 1000 } : ArkEnv).now
        - loadTimestamp [("Source", [("image", "1")]),
           ("Arkivum Archiver",
            [("md5", "md5-6"), ("adler32", "8"), ("size", "3"),
             ("path", "/arkivum/omero/data/img.tif"),
             ("copied", "ctime-900"), ("timestamp", "900")])]
          ARK_ARKIVUM_ARCHIVER < 600 →
      (processArk { testArkEnvSilent with now := 1000 } arkResumeSt
        "/data/img.tif").1 = .ok JOB_RUNNING) ∧
    (600 ≤ ({ testArkEnvSilent with now := 1000 } : ArkEnv).now
        - loadTimestamp [("Source", [("image", "1")]),
           ("Arkivum Archiver",
            [("md5", "md5-6"), ("adler32", "8"), ("size", "3"),
             ("path", "/arkivum/omero/data/img.tif"),
             ("copied", "ctime-900"), ("timestamp", "900")])]
          ARK_ARKIVUM_ARCHIVER →
      (processArk { testArkEnvSilent with now := 1000 } arkResumeSt
        "/data/img.tif").1
        = .exc (.exception "No file information available from Arkivum")) :=
  C5_no_remote_record_grace_window { testArkEnvSilent with now := 1000 }
    arkResumeSt "/data/img.tif" [1, 2, 3]
    [("Source", [("image", "1")]),
     ("Arkivum Archiver",
      [("md5", "md5-6"), ("adler32", "8"), ("size", "3"),
       ("path", "/arkivum/omero/data/img.tif"),
       ("copied", "ctime-900"), ("timestamp", "900")])]
    "md5-6" "8" "3" 3
    (by decide) (by decide) (by decide) (by decide) (by decide) (by decide)
    (by decide) (by decide) (by decide) (by decide) (by decide) rfl

/-! ## Claim C2: verification mismatch raises and never deletes the source -/

/-- **C2** (confirmed).  Whenever verification observes a mismatch
between the destination and the source, `process` raises and the whole
filesystem — in particular the source file — is left untouched.
* File archiver: in the recompute branch (destination present, recorded
  digests incomplete) with any of the three digests of the destination
  differing from those of the source, `process` raises the checksum
  `Exception` before the `os.remove` of the source is reached.
* Arkivum archiver: in the resume branch with the remote record in
  `FINAL` ingest state, a remote size differing from the local size or a
  remote MD5 differing from the recorded one raises before any deletion.
-/
theorem C2_no_deletion_on_mismatch :
    (∀ (env : FileEnv) (st : St) (path : String) (content destContent : List Nat)
       (cfg0 : Config),
      alookup st.fs path = some (.regular content) →
      alookup st.recs (get_ark_path env.archiveLog path) = some cfg0 →
      alookup st.fs (destPathOf env.archiveRoot path) = some (.regular destContent) →
      ¬ (truthy (loadSize cfg0 ARK_FILE_ARCHIVER) = true ∧
         struthy (getOpt cfg0 ARK_FILE_ARCHIVER "md5") = true ∧
         struthy (getOpt cfg0 ARK_FILE_ARCHIVER "sha256") = true ∧
         struthy (getOpt cfg0 ARK_FILE_ARCHIVER "adler32") = true) →
      (env.md5 content ≠ env.md5 destContent ∨
       env.sha256 content ≠ env.sha256 destContent ∨
       env.adler32 content ≠ env.adler32 destContent) →
      (processFile env st path).1
          = .exc (.exception "Archived file has different checksum") ∧
      (processFile env st path).2.fs = st.fs) ∧
    (∀ (env : ArkEnv) (st : St) (path : String) (content : List Nat) (cfg0 : Config)
       (m a szs : String) (n : Nat) (info : RInfo),
      alookup st.fs path = some (.regular content) →
      alookup st.recs (get_ark_path env.archiveLog path) = some cfg0 →
      hasSect cfg0 ARK_ARKIVUM_ARCHIVER = true →
      pexists st (arkDestPathOf env path) = true →
      getOpt cfg0 ARK_ARKIVUM_ARCHIVER "md5" = some m → m ≠ "" →
      getOpt cfg0 ARK_ARKIVUM_ARCHIVER "adler32" = some a → a ≠ "" →
      getOpt cfg0 ARK_ARKIVUM_ARCHIVER "size" = some szs →
      parseNat? szs = some n → n ≠ 0 →
      env.remote (arkRelPathOf env path) = some info →
      info.ingestState = some "FINAL" →
      (info.size ≠ some n ∨ m ≠ info.md5.getD "") →
      isExc (processArk env st path).1 = true ∧
      (processArk env st path).2.fs = st.fs) := by
  constructor
  · intro env st path content destContent cfg0 hsrc hrec hdest hinc hmis
    have hpex : pexists st (destPathOf env.archiveRoot path) = true := by
      unfold pexists
      rw [hdest]
      rfl
    have hls : loadSize (ensureSect cfg0 ARK_FILE_ARCHIVER) ARK_FILE_ARCHIVER
        = loadSize cfg0 ARK_FILE_ARCHIVER := by
      unfold loadSize
      rw [getOpt_ensureSect]
    obtain ⟨cfg2, hset2⟩ := setMany_some_of_hasSect
      [("md5", env.md5 content), ("sha256", env.sha256 content),
       ("adler32", toString (env.adler32 content)),
       ("size", toString content.length),
       ("path", destPathOf env.archiveRoot path)]
      (ensureSect cfg0 ARK_FILE_ARCHIVER) ARK_FILE_ARCHIVER
      (hasSect_ensureSect cfg0 ARK_FILE_ARCHIVER)
    have htry : fileTry env st (ensureSect cfg0 ARK_FILE_ARCHIVER) path content
        = fileVerify env st cfg2 path (destPathOf env.archiveRoot path)
            (env.md5 content) (env.sha256 content) (env.adler32 content) := by
      unfold fileTry
      rw [if_neg (by simp [hpex])]
      rw [if_pos (by
        rw [hls, getOpt_ensureSect, getOpt_ensureSect, getOpt_ensureSect]
        exact hinc)]
      dsimp only
      rw [hset2]
    have hver : fileVerify env st cfg2 path (destPathOf env.archiveRoot path)
        (env.md5 content) (env.sha256 content) (env.adler32 content)
        = .inl (.exception "Archived file has different checksum", cfg2, st) := by
      unfold fileVerify
      rw [show readFile st (destPathOf env.archiveRoot path) = some destContent from by
        unfold readFile
        rw [hdest]]
      dsimp only
      rw [if_pos hmis]
    unfold processFile
    rw [hsrc]
    simp only [hrec, htry, hver]
    exact ⟨trivial, rfl⟩
  · intro env st path content cfg0 m a szs n info hsrc hrec hsect hdest hmd5 hm hadl
      ha hsize hszp hn hremote hingest hmis
    have hens : ensureSect cfg0 ARK_ARKIVUM_ARCHIVER = cfg0 := by
      unfold ensureSect
      rw [if_pos hsect]
    have hresume : arkTry env st cfg0 path content
        = arkVerify env st cfg0 path (arkRelPathOf env path) (arkDestPathOf env path)
            m (.pint n) (loadTimestamp cfg0 ARK_ARKIVUM_ARCHIVER) false := by
      unfold arkTry
      rw [if_neg (by simp [hdest])]
      rw [if_neg (by
        simp only [loadSize, hsize, hszp, truthy, struthy, hmd5, hadl]
        simp [hm, ha, hn])]
      simp only [loadSize, hsize, hszp, hmd5]
      rfl
    have hsizecheck : ∀ ver,
        arkVerify env st cfg0 path (arkRelPathOf env path) (arkDestPathOf env path)
          m (.pint n) (loadTimestamp cfg0 ARK_ARKIVUM_ARCHIVER) false = ver →
        ∃ e cfgx, ver = Sum.inl (e, cfgx, st) := by
      intro ver hver
      unfold arkVerify at hver
      rw [hremote] at hver
      dsimp only at hver
      rw [hingest] at hver
      simp only [Option.getD_some, ne_eq, eq_self_iff_true, not_true,
        if_false] at hver
      rcases hmis with hszmis | hmdmis
      · have helim : info.size.elim false (pyEqInt (.pint n)) = false := by
          cases hsz : info.size with
          | none => rfl
          | some n2 =>
            have : n ≠ n2 := fun hh => hszmis (by rw [hsz, hh])
            simp [pyEqInt, this]
        rw [if_pos (by simp [helim])] at hver
        exact ⟨_, _, hver.symm⟩
      · by_cases hsz2 : info.size.elim false (pyEqInt (.pint n)) = true
        · rw [if_neg (by simp [hsz2])] at hver
          rw [if_pos hmdmis] at hver
          exact ⟨_, _, hver.symm⟩
        · rw [if_pos (by simpa using hsz2)] at hver
          exact ⟨_, _, hver.symm⟩
    obtain ⟨e, cfgx, hver⟩ := hsizecheck _ rfl
    unfold processArk
    rw [hsrc]
    simp only [hrec, hens, hresume, hver]
    exact ⟨rfl, rfl⟩

/-- **C2** witness: both parts at concrete mismatching states — the file
archiver over a corrupt destination copy with an incomplete record, and
the Arkivum archiver against a remote record whose MD5 differs. -/
theorem C2_witness :
    ((processFile testFileEnv corruptDestSt "/data/img.tif").1
        = .exc (.exception "Archived file has different checksum") ∧
      (processFile testFileEnv corruptDestSt "/data/img.tif").2.fs
        = corruptDestSt.fs) ∧
    (isExc (processArk testArkEnvBadMd5 arkResumeSt "/data/img.tif").1 = true ∧
      (processArk testArkEnvBadMd5 arkResumeSt "/data/img.tif").2.fs
        = arkResumeSt.fs) :=
  ⟨C2_no_deletion_on_mismatch.1 testFileEnv corruptDestSt "/data/img.tif"
    [1, 2, 3] [9, 9] [("Source", [("image", "1")])]
    (by decide) (by decide) (by decide) (by decide) (by decide),
   C2_no_deletion_on_mismatch.2 testArkEnvBadMd5 arkResumeSt "/data/img.tif"
    [1, 2, 3]
    [("Source", [("image", "1")]),
     ("Arkivum Archiver",
      [("md5", "md5-6"), ("adler32", "8"), ("size", "3"),
       ("path", "/arkivum/omero/data/img.tif"),
       ("copied", "ctime-900"), ("timestamp", "900")])]
    "md5-6" "8" "3" 3 rinfoBadMd5
    (by decide) (by decide) (by decide) (by decide) (by decide) (by decide)
    (by decide) (by decide) (by decide) (by decide) (by decide) rfl
    (by decide) (by decide)⟩

/-! ## Claim C10: only the archiver sections are ever written -/

theorem fileVerify_cfg (env : FileEnv) (st : St) (cfg : Config)
    (path arkPath m s2 : String) (a : Nat) :
    ∀ t, t ≠ ARK_FILE_ARCHIVER →
      getSect (tryCfg (fileVerify env st cfg path arkPath m s2 a)) t = getSect cfg t := by
  intro t ht
  unfold fileVerify
  dsimp only
  split
  · rfl
  · split
    · rfl
    · split
      · rfl
      · rename_i cfg1 heq
        exact getSect_setOpt_ne cfg ARK_FILE_ARCHIVER "archived" (env.ctime env.now)
          t cfg1 heq ht

theorem fileTry_cfg (env : FileEnv) (st : St) (cfg : Config) (path : String)
    (content : List Nat) :
    ∀ t, t ≠ ARK_FILE_ARCHIVER →
      getSect (tryCfg (fileTry env st cfg path content)) t = getSect cfg t := by
  intro t ht
  unfold fileTry
  dsimp only
  split
  · split
    · rfl
    · rename_i cfg1 heq
      rw [fileVerify_cfg env _ cfg1 path _ _ _ _ t ht]
      exact getSect_setMany_ne cfg ARK_FILE_ARCHIVER _ t cfg1 heq ht
  · split
    · split
      · rfl
      · rename_i cfg1 heq
        rw [fileVerify_cfg env st cfg1 path _ _ _ _ t ht]
        exact getSect_setMany_ne cfg ARK_FILE_ARCHIVER _ t cfg1 heq ht
    · rfl

theorem arkVerify_cfg (env : ArkEnv) (st : St) (cfg : Config)
    (path relPath arkPath m : String) (szV : PyScalar) (timestamp : Nat)
    (fileCopied : Bool) :
    ∀ t, t ≠ ARK_ARKIVUM_ARCHIVER →
      getSect (tryCfg (arkVerify env st cfg path relPath arkPath m szV timestamp
        fileCopied)) t = getSect cfg t := by
  intro t ht
  unfold arkVerify
  dsimp only
  split
  · split
    · rfl
    · rfl
  · split
    · rfl
    · split
      · rfl
      · split
        · rfl
        · split
          · rfl
          · rename_i cfg1 heq
            split
            · split
              · exact getSect_setOpt_ne cfg ARK_ARKIVUM_ARCHIVER "state" _ t cfg1
                  heq ht
              · rename_i cfg2 heq2
                exact (getSect_setOpt_ne cfg1 ARK_ARKIVUM_ARCHIVER "archived" _ t
                    cfg2 heq2 ht).trans
                  (getSect_setOpt_ne cfg ARK_ARKIVUM_ARCHIVER "state" _ t cfg1
                    heq ht)
            · exact getSect_setOpt_ne cfg ARK_ARKIVUM_ARCHIVER "state" _ t cfg1
                heq ht

theorem arkTry_cfg (env : ArkEnv) (st : St) (cfg : Config) (path : String)
    (content : List Nat) :
    ∀ t, t ≠ ARK_ARKIVUM_ARCHIVER → t ≠ ARK_FILE_ARCHIVER →
      getSect (tryCfg (arkTry env st cfg path content)) t = getSect cfg t := by
  intro t ht htf
  unfold arkTry
  dsimp only
  split
  · split
    · rfl
    · rename_i cfg1 heq
      rw [arkVerify_cfg env _ cfg1 path _ _ _ _ _ _ t ht]
      exact getSect_setMany_ne cfg ARK_ARKIVUM_ARCHIVER _ t cfg1 heq ht
  · split
    · split
      · rfl
      · rename_i cfg1 heq
        split
        · exact getSect_setMany_ne cfg ARK_ARKIVUM_ARCHIVER _ t cfg1 heq ht
        · rename_i cfg2 heq2
          rw [arkVerify_cfg env st cfg2 path _ _ _ _ _ _ t ht]
          exact (getSect_setOpt_ne cfg1 ARK_FILE_ARCHIVER "path" _ t cfg2 heq2
              htf).trans
            (getSect_setMany_ne cfg ARK_ARKIVUM_ARCHIVER _ t cfg1 heq ht)
    · exact arkVerify_cfg env st cfg path _ _ _ _ _ _ t ht

/-- **C10** (confirmed).  Whenever either `process` reaches the transfer
stage, the record it persists on exit differs from the loaded record
only in the archiver sections: the file archiver writes only to
`File Archiver`, the Arkivum archiver to `Arkivum Archiver` (and, through
the slip at `archive_to_arkivum.py` line 384, possibly `File Archiver`);
every other section — in particular `Source` — is carried through with
every key-value pair intact. -/
theorem C10_source_section_preserved :
    (∀ (env : FileEnv) (st : St) (path : String) (content : List Nat) (cfg0 : Config),
      alookup st.fs path = some (.regular content) →
      alookup st.recs (get_ark_path env.archiveLog path) = some cfg0 →
      ∃ cf, alookup (processFile env st path).2.recs
          (get_ark_path env.archiveLog path) = some cf ∧
        getSect cf ARK_SOURCE = getSect cfg0 ARK_SOURCE ∧
        (∀ s, s ≠ ARK_FILE_ARCHIVER → getSect cf s = getSect cfg0 s)) ∧
    (∀ (env : ArkEnv) (st : St) (path : String) (content : List Nat) (cfg0 : Config),
      alookup st.fs path = some (.regular content) →
      alookup st.recs (get_ark_path env.archiveLog path) = some cfg0 →
      ∃ cf, alookup (processArk env st path).2.recs
          (get_ark_path env.archiveLog path) = some cf ∧
        getSect cf ARK_SOURCE = getSect cfg0 ARK_SOURCE ∧
        (∀ s, s ≠ ARK_ARKIVUM_ARCHIVER → s ≠ ARK_FILE_ARCHIVER →
          getSect cf s = getSect cfg0 s)) := by
  constructor
  · intro env st path content cfg0 hsrc hrec
    have hframe : ∀ t, t ≠ ARK_FILE_ARCHIVER →
        getSect (tryCfg (fileTry env st (ensureSect cfg0 ARK_FILE_ARCHIVER)
          path content)) t = getSect cfg0 t := by
      intro t ht
      rw [fileTry_cfg env st (ensureSect cfg0 ARK_FILE_ARCHIVER) path content t ht]
      exact getSect_ensureSect_ne cfg0 ARK_FILE_ARCHIVER t ht
    unfold processFile
    rw [hsrc]
    simp only [hrec]
    rcases hft : fileTry env st (ensureSect cfg0 ARK_FILE_ARCHIVER) path content with
      ⟨e, cfg, st'⟩ | ⟨archived, cfg, st'⟩
    · refine ⟨cfg, ?_, ?_, ?_⟩
      · simp only [writeRec]
        exact alookup_ainsert st'.recs (get_ark_path env.archiveLog path) cfg
      · have h2 := hframe ARK_SOURCE (by decide)
        rw [hft] at h2
        exact h2
      · intro s hs
        have h2 := hframe s hs
        rw [hft] at h2
        exact h2
    · refine ⟨cfg, ?_, ?_, ?_⟩
      · simp only [writeRec]
        exact alookup_ainsert st'.recs (get_ark_path env.archiveLog path) cfg
      · have h2 := hframe ARK_SOURCE (by decide)
        rw [hft] at h2
        exact h2
      · intro s hs
        have h2 := hframe s hs
        rw [hft] at h2
        exact h2
  · intro env st path content cfg0 hsrc hrec
    have hframe : ∀ t, t ≠ ARK_ARKIVUM_ARCHIVER → t ≠ ARK_FILE_ARCHIVER →
        getSect (tryCfg (arkTry env st (ensureSect cfg0 ARK_ARKIVUM_ARCHIVER)
          path content)) t = getSect cfg0 t := by
      intro t ht htf
      rw [arkTry_cfg env st (ensureSect cfg0 ARK_ARKIVUM_ARCHIVER) path content t
        ht htf]
      exact getSect_ensureSect_ne cfg0 ARK_ARKIVUM_ARCHIVER t ht
    unfold processArk
    rw [hsrc]
    simp only [hrec]
    rcases hft : arkTry env st (ensureSect cfg0 ARK_ARKIVUM_ARCHIVER) path content
      with ⟨e, cfg, st'⟩ | ⟨archived, cfg, st'⟩
    · refine ⟨cfg, ?_, ?_, ?_⟩
      · simp only [writeRec]
        exact alookup_ainsert st'.recs (get_ark_path env.archiveLog path) cfg
      · have h2 := hframe ARK_SOURCE (by decide) (by decide)
        rw [hft] at h2
        exact h2
      · intro s hs hsf
        have h2 := hframe s hs hsf
        rw [hft] at h2
        exact h2
    · refine ⟨cfg, ?_, ?_, ?_⟩
      · simp only [writeRec]
        exact alookup_ainsert st'.recs (get_ark_path env.archiveLog path) cfg
      · have h2 := hframe ARK_SOURCE (by decide) (by decide)
        rw [hft] at h2
        exact h2
      · intro s hs hsf
        have h2 := hframe s hs hsf
        rw [hft] at h2
        exact h2

/-- **C10** witness: both processes at concrete resume states — the
`Source` section of each persisted record equals the loaded one. -/
theorem C10_witness :
    (∃ cf, alookup (processFile testFileEnv resumeSt "/data/img.tif").2.recs
        (get_ark_path testFileEnv.archiveLog "/data/img.tif") = some cf ∧
      getSect cf ARK_SOURCE
        = getSect [("Source", [("image", "1")]),
            ("File Archiver",
             [("md5", "md5-6"), ("sha256", "sha-7"), ("adler32", "8"),
              ("size", "3"), ("path", "/arch/data/img.tif"),
              ("copied", "ctime-900"), ("timestamp", "900")])] ARK_SOURCE ∧
      (∀ s, s ≠ ARK_FILE_ARCHIVER →
        getSect cf s
          = getSect [("Source", [("image", "1")]),
              ("File Archiver",
               [("md5", "md5-6"), ("sha256", "sha-7"), ("adler32", "8"),
                ("size", "3"), ("path", "/arch/data/img.tif"),
                ("copied", "ctime-900"), ("timestamp", "900")])] s)) ∧
    (∃ cf, alookup (processArk testArkEnvSilent arkResumeSt "/data/img.tif").2.recs
        (get_ark_path testArkEnvSilent.archiveLog "/data/img.tif") = some cf ∧
      getSect cf ARK_SOURCE
        = getSect [("Source", [("image", "1")]),
            ("Arkivum Archiver",
             [("md5", "md5-6"), ("adler32", "8"), ("size", "3"),
              ("path", "/arkivum/omero/data/img.tif"),
              ("copied", "ctime-900"), ("timestamp", "900")])] ARK_SOURCE ∧
      (∀ s, s ≠ ARK_ARKIVUM_ARCHIVER → s ≠ ARK_FILE_ARCHIVER →
        getSect cf s
          = getSect [("Source", [("image", "1")]),
              ("Arkivum Archiver",
               [("md5", "md5-6"), ("adler32", "8"), ("size", "3"),
                ("path", "/arkivum/omero/data/img.tif"),
                ("copied", "ctime-900"), ("timestamp", "900")])] s)) :=
  ⟨C10_source_section_preserved.1 testFileEnv resumeSt "/data/img.tif" [1, 2, 3]
    [("Source", [("image", "1")]),
     ("File Archiver",
      [("md5", "md5-6"), ("sha256", "sha-7"), ("adler32", "8"),
       ("size", "3"), ("path", "/arch/data/img.tif"),
       ("copied", "ctime-900"), ("timestamp", "900")])]
    (by decide) (by decide),
   C10_source_section_preserved.2 testArkEnvSilent arkResumeSt "/data/img.tif"
    [1, 2, 3]
    [("Source", [("image", "1")]),
     ("Arkivum Archiver",
      [("md5", "md5-6"), ("adler32", "8"), ("size", "3"),
       ("path", "/arkivum/omero/data/img.tif"),
       ("copied", "ctime-900"), ("timestamp", "900")])]
    (by decide) (by decide)⟩

end OmeroArchiving
